import Mathlib

/-!
Shallow embedding of the Webripper (SiteRipper) crawler engine.

The source of truth is `src/services/proxy.ts` (the `fetchWithProxy` relay
client and the `Crawler` class), `src/types.ts` (the data model) and
`src/App.tsx` (the session entry point).  Pure computations (URL resolution,
filename assignment, the CSS `url(...)` scanner, HTML reference rewriting) are
translated into executable Lean functions; the stateful crawl is modelled as
explicit state passing over a `CrawlState` record, with the network modelled
as an oracle `String → Option String` (`none` means every relay failed, as in
`fetchWithProxy`'s terminal throw) and the browser's `DOMParser` /
`XMLSerializer` modelled as fields of a `World` record, since they are
external collaborators of the crawler.

Within one `Promise.all` chunk the real tasks interleave at `await` points;
the `visitedUrls` membership check and insert are synchronous (no `await`
between them), so check-and-set is atomic.  The model executes a chunk's
tasks in queue order (the order in which `chunk.map` starts them) and keeps
the check-and-set as one atomic step, which is faithful to every observable
the claims mention (stats snapshots, fetch multiplicities, log entries,
archive contents).

Every stats callback, log callback, network request and archive write is
recorded in an event trace so that temporal claims ("after every stats
update", "at most once per session") can be stated about the trace.

Strings are processed over `String.data` with structural recursion so that
every definition evaluates inside the kernel on concrete inputs.
-/

namespace Webripper

/-! ## Data model, from `src/types.ts` -/

/-- Asset kinds, from `Asset['type']` in `types.ts`. -/
inductive AssetType
  | image
  | css
  | js
  | font
  | video
  | other
deriving DecidableEq

/-- An entry of the asset registry (`types.ts` `Asset`).  The source also has
an optional `content` field that the crawler never sets; the archive content
lives in the zip model instead.  `kind` is the source's `type` field. -/
structure Asset where
  originalUrl : String
  filename : String
  kind : AssetType
  path : String
deriving DecidableEq

/-- Running counters (`types.ts` `CrawlStats`).  `totalSize` is the spec's
`totalBytes`. -/
structure CrawlStats where
  pagesScanned : Nat
  assetsFound : Nat
  assetsDownloaded : Nat
  totalSize : Nat
deriving DecidableEq

/-- Log severities, from `types.ts` `LogLevel`. -/
inductive LogLevel
  | INFO
  | SUCCESS
  | WARNING
  | ERROR
deriving DecidableEq

/-- One log line.  The source's `LogEntry` also carries a random `id` and a
wall-clock `timestamp`; both are environment noise and are not modelled. -/
structure LogEntry where
  message : String
  level : LogLevel
deriving DecidableEq

/-- Observable events of one crawl session, in emission order. -/
inductive Event
  | fetch (url : String)
  | statsUpdate (stats : CrawlStats)
  | log (entry : LogEntry)
deriving DecidableEq

/-! ## String helpers

Structural-recursion replacements for the platform string routines the
source uses (`String.prototype.split`, `startsWith`, `substring`,
template-literal number formatting, `split(x).join(y)`), written over
`String.data` so that the kernel can evaluate them. -/

/-- Boolean string-prefix test (`String.prototype.startsWith`). -/
def startsWithS (s pre : String) : Bool :=
  pre.data.isPrefixOf s.data

/-- First `n` characters (`String.prototype.substring(0, n)`). -/
def takeS (s : String) (n : Nat) : String :=
  String.mk (s.data.take n)

/-- Character membership (`String.prototype.includes` for one character). -/
def containsS (s : String) (c : Char) : Bool :=
  s.data.contains c

/-- Split on every occurrence of a separator character
(`String.prototype.split` with a one-character separator). -/
def splitCharAux (sep : Char) : List Char → List Char → List String
  | [], acc => [String.mk acc.reverse]
  | c :: rest, acc =>
    if c = sep then String.mk acc.reverse :: splitCharAux sep rest []
    else splitCharAux sep rest (c :: acc)

/-- Split a string on a separator character. -/
def splitChar (sep : Char) (s : String) : List String :=
  splitCharAux sep s.data []

/-- Split at the first occurrence of a separator character, keeping the rest
(including later separators) whole; `none` if the separator is absent. -/
def splitFirstAux (sep : Char) : List Char → List Char → String × Option String
  | [], acc => (String.mk acc.reverse, none)
  | c :: rest, acc =>
    if c = sep then (String.mk acc.reverse, some (String.mk rest))
    else splitFirstAux sep rest (c :: acc)

/-- Split a string at the first occurrence of a separator character. -/
def splitFirst (sep : Char) (s : String) : String × Option String :=
  splitFirstAux sep s.data []

/-- Join a list of strings with a separator. -/
def joinWith (sep : String) : List String → String
  | [] => ""
  | [x] => x
  | x :: y :: rest => x ++ sep ++ joinWith sep (y :: rest)

/-- Decimal digit character. -/
def digitChar (n : Nat) : Char := Char.ofNat (48 + n)

/-- Decimal digits of a natural number, most significant first. -/
def natDigits : Nat → Nat → List Char
  | 0, _ => []
  | fuel + 1, n =>
    if n < 10 then [digitChar n]
    else natDigits fuel (n / 10) ++ [digitChar (n % 10)]

/-- Decimal rendering of a natural number (template-literal `${n}`). -/
def natToStr (n : Nat) : String := String.mk (natDigits (n + 1) n)

/-- Replace every (leftmost, non-overlapping) occurrence of `pat` by `rep`
(JS `s.split(pat).join(rep)`). -/
def replaceAllAux (pat rep : List Char) : Nat → List Char → List Char
  | 0, l => l
  | _ + 1, [] => []
  | fuel + 1, c :: rest =>
    if pat.isPrefixOf (c :: rest) then
      rep ++ replaceAllAux pat rep fuel ((c :: rest).drop pat.length)
    else
      c :: replaceAllAux pat rep fuel rest

/-- Replace every occurrence of `pat` in `s` by `rep`.  The crawler only ever
calls this with `pat` a nonempty absolute URL. -/
def replaceAllS (s pat rep : String) : String :=
  if pat.data = [] then s
  else String.mk (replaceAllAux pat.data rep.data s.data.length s.data)

/-! ## URL model

A simplified WHATWG-URL model sufficient for the crawler: hierarchical
`scheme://host/path?query#fragment` URLs.  `new URL(input)` is
`parseAbsolute`; `new URL(ref, base)` is `resolveS`.  Non-hierarchical
schemes (`data:`, `mailto:`) are rejected by the parser; the crawler filters
`data:` references before resolution, so this only narrows behaviour on
inputs the claims never exercise.  Scheme/host case- and port-normalisation
are not modelled. -/

/-- Path segments of a URL, as produced by splitting the pathname on `/`
after the leading slash; the list is nonempty, `[""]` denotes `/`. -/
structure URLModel where
  scheme : String
  host : String
  path : List String
  query : Option String
  frag : Option String
deriving DecidableEq

/-- The serialised URL (`URL.prototype.href`). -/
def URLModel.href (u : URLModel) : String :=
  u.scheme ++ "://" ++ u.host ++ "/" ++ joinWith "/" u.path
    ++ (match u.query with | some q => "?" ++ q | none => "")
    ++ (match u.frag with | some f => "#" ++ f | none => "")

/-- The path component (`URL.prototype.pathname`). -/
def URLModel.pathname (u : URLModel) : String :=
  "/" ++ joinWith "/" u.path

/-- ASCII letter test. -/
def isAlphaChar (c : Char) : Bool :=
  (97 ≤ c.toNat ∧ c.toNat ≤ 122) ∨ (65 ≤ c.toNat ∧ c.toNat ≤ 90)

/-- Characters allowed in a URL scheme after the first letter. -/
def isSchemeChar (c : Char) : Bool :=
  isAlphaChar c ∨ c.isDigit ∨ c = '+' ∨ c = '-' ∨ c = '.'

/-- If `s` starts with `scheme:`, return the scheme and the remainder. -/
def schemeSplit (s : String) : Option (String × String) :=
  match s.data with
  | [] => none
  | c :: _ =>
    if isAlphaChar c then
      match s.data.dropWhile isSchemeChar with
      | ':' :: r => some (String.mk (s.data.takeWhile isSchemeChar), String.mk r)
      | _ => none
    else none

/-- Split off a `#fragment` suffix at the first `#`. -/
def splitFrag (s : String) : String × Option String := splitFirst '#' s

/-- Split a path-and-query remainder into path segments and query. -/
def pathQuerySplit (s : String) : List String × Option String :=
  match splitFirst '?' s with
  | (p, q) => (splitChar '/' p, q)

/-- Parse an absolute hierarchical URL (`new URL(input)`); `none` models the
constructor throwing a `TypeError`. -/
def parseAbsolute (s : String) : Option URLModel :=
  match schemeSplit s with
  | none => none
  | some (sch, rest) =>
    if startsWithS rest "//" then
      match splitFrag (String.mk (rest.data.drop 2)) with
      | (noFrag, frag) =>
        let hostChars := noFrag.data.takeWhile (fun c => ¬(c = '/' ∨ c = '?'))
        let afterHost := noFrag.data.dropWhile (fun c => ¬(c = '/' ∨ c = '?'))
        if hostChars = [] then none
        else
          let hp : List String × Option String :=
            match afterHost with
            | [] => ([""], none)
            | '?' :: q => ([""], some (String.mk q))
            | '/' :: rest2 => pathQuerySplit (String.mk rest2)
            | _ :: _ => ([""], none)
          some { scheme := sch, host := String.mk hostChars, path := hp.1,
                 query := hp.2, frag := frag }
    else none

/-- RFC 3986 dot-segment removal over path segments, accumulator reversed. -/
def remDotsAux : List String → List String → List String
  | acc, [] => acc.reverse
  | acc, ["."] => ("" :: acc).reverse
  | acc, "." :: rest => remDotsAux acc rest
  | acc, [".."] => ("" :: acc.drop 1).reverse
  | acc, ".." :: rest => remDotsAux (acc.drop 1) rest
  | acc, seg :: rest => remDotsAux (seg :: acc) rest

/-- Resolve a reference against a parsed base (`new URL(ref, base)` with the
base already parsed).  `none` models the constructor throwing. -/
def resolveM (ref : String) (base : URLModel) : Option URLModel :=
  match splitFrag ref with
  | (refMain, frag) =>
    match schemeSplit refMain with
    | some _ => parseAbsolute ref
    | none =>
      if startsWithS refMain "//" then
        parseAbsolute (base.scheme ++ ":" ++ ref)
      else if refMain = "" then
        some { base with frag := none }
      else if startsWithS refMain "/" then
        match pathQuerySplit (String.mk (refMain.data.drop 1)) with
        | (p, q) => some { base with path := remDotsAux [] p, query := q, frag := frag }
      else if startsWithS refMain "?" then
        some { base with query := some (String.mk (refMain.data.drop 1)), frag := frag }
      else
        match pathQuerySplit refMain with
        | (p, q) =>
          some { base with path := remDotsAux [] (base.path.dropLast ++ p), query := q, frag := frag }

/-- Resolve a reference against a base given as a string, as the crawler does
with `new URL(ref, baseString)`: the reference wins if absolute; otherwise
the base must itself parse. -/
def resolveS (ref : String) (base : String) : Option URLModel :=
  match parseAbsolute base with
  | some b => resolveM ref b
  | none =>
    match schemeSplit ref with
    | some _ => parseAbsolute ref
    | none => none

/-! ## Registry naming, from `Crawler.getFolderForType` / `getFilenameFromUrl` -/

/-- Destination folder per asset kind (`Crawler.getFolderForType`). -/
def getFolderForType (t : AssetType) : String :=
  match t with
  | .css => "css"
  | .js => "js"
  | .image => "images"
  | .font => "fonts"
  | _ => "assets"

/-- Default extension appended when the basename has none
(`getFilenameFromUrl`'s `if (!name.includes('.'))` branch). -/
def extFor (t : AssetType) : String :=
  match t with
  | .css => ".css"
  | .js => ".js"
  | .image => ".png"
  | _ => ".dat"

/-- Filename assignment (`Crawler.getFilenameFromUrl`): last path segment of
the URL, `index` if empty, query stripped, kind extension appended when the
name has no dot.  The source's `catch` branch draws a random 5-character
name; it is unreachable for the resolver-produced absolute URLs the crawler
passes in, and is modelled by a fixed placeholder. -/
def getFilenameFromUrl (url : String) (t : AssetType) : String :=
  match parseAbsolute url with
  | some u =>
    let segs := splitChar '/' u.pathname
    let pop := (segs.getLast? ).getD ""
    let name0 := if pop = "" then "index" else pop
    let name := (splitFirst '?' name0).1
    if containsS name '.' then name else name ++ extFor t
  | none => "file_rnd"

/-! ## Crawl state and primitives -/

/-- A DOM element, flattened: tag name (uppercase, as `tagName`), the parent
tag name for modelling the `video source` / `audio source` descendant
selectors, and the attribute list. -/
structure Elem where
  tag : String
  parentTag : Option String
  attrs : List (String × String)
deriving DecidableEq

/-- Insertion-ordered association lookup (`Map.prototype.get`,
`getAttribute`). -/
def assocGet {α : Type} (m : List (String × α)) (k : String) : Option α :=
  (m.find? (fun p => p.1 = k)).map Prod.snd

/-- Insertion-ordered association update (`Map.prototype.set`,
`setAttribute`, `JSZip.file`): replace in place if the key exists, else
append. -/
def assocSet {α : Type} (m : List (String × α)) (k : String) (v : α) :
    List (String × α) :=
  if m.any (fun p => p.1 = k) then
    m.map (fun p => if p.1 = k then (k, v) else p)
  else m ++ [(k, v)]

/-- Attribute read (`Element.getAttribute`). -/
def getAttr (e : Elem) (n : String) : Option String := assocGet e.attrs n

/-- Attribute write (`Element.setAttribute`). -/
def setAttr (e : Elem) (n v : String) : Elem :=
  { e with attrs := assocSet e.attrs n v }

/-- The crawl session state: the `Crawler`'s `visitedUrls`, `assets` map,
`stats` and zip contents, the emitted event trace, and the rewritten
document (for inspecting the Document Rewriter's output). -/
structure CrawlState where
  visited : List String
  assets : List (String × Asset)
  stats : CrawlStats
  zip : List (String × String)
  trace : List Event
  finalDoc : Option (List Elem)
deriving DecidableEq

/-- The state a session starts from. -/
def initState : CrawlState :=
  { visited := [], assets := [], stats := ⟨0, 0, 0, 0⟩, zip := [],
    trace := [], finalDoc := none }

/-- Append one event to the trace. -/
def emit (s : CrawlState) (e : Event) : CrawlState :=
  { s with trace := s.trace ++ [e] }

/-- The crawler's `log` helper (the `onLog` callback becomes a trace event). -/
def logS (s : CrawlState) (msg : String) (lv : LogLevel) : CrawlState :=
  emit s (.log ⟨msg, lv⟩)

/-- The crawler's `updateStats`: install the merged stats record and surface
it to the `onStatsUpdate` callback (a trace event). -/
def updStats (s : CrawlState) (st : CrawlStats) : CrawlState :=
  { s with stats := st, trace := s.trace ++ [.statsUpdate st] }

/-- The external collaborators of one session: the relay fetch outcome per
URL (`none` = all relays failed), `DOMParser.parseFromString` and
`XMLSerializer.serializeToString` (together with the `<base>`-strip regex)
as black-box functions. -/
structure World where
  fetchResult : String → Option String
  parseHtml : String → List Elem
  serialize : List Elem → String

/-- Terminal error message of `fetchWithProxy` after the relay list is
exhausted (its `Last error` detail is environment noise and not modelled). -/
def proxyFailMsg (url : String) : String :=
  "All proxies failed to fetch " ++ url ++ "."

/-- `Crawler.fetchText`: one relay-client fetch; on success the body and a
`totalSize` bump, on failure the thrown error propagates (`none`). -/
def fetchTextM (fr : String → Option String) (url : String) (s : CrawlState) :
    Option String × CrawlState :=
  let s := emit s (.fetch url)
  match fr url with
  | none => (none, s)
  | some body =>
    (some body, updStats s { s.stats with totalSize := s.stats.totalSize + body.length })

/-- `Crawler.fetchBlob`: identical to `fetchText` in the model, with
`blob.size` modelled as the body length. -/
def fetchBlobM (fr : String → Option String) (url : String) (s : CrawlState) :
    Option String × CrawlState :=
  let s := emit s (.fetch url)
  match fr url with
  | none => (none, s)
  | some body =>
    (some body, updStats s { s.stats with totalSize := s.stats.totalSize + body.length })

/-! ## CSS `url(...)` scanner, from `Crawler.processCssAssets`

The source uses the regex `/url\((['"]?)(.*?)\1\)/g` both with `exec` (the
extraction loop) and with `replace` (the rewrite pass).  The scanner below
reproduces the engine's behaviour: at each position try to match `url(`,
then an optional quote; with a quote present first try the quoted
alternative (lazy inner up to quote-then-`)`), backtracking to the
empty-quote alternative if it fails; the lazy inner `.` matches everything
except line terminators. -/

/-- CSS quote characters (the regex's `['"]`).  `39` is the apostrophe. -/
def isCssQuote (c : Char) : Bool := c = '"' ∨ c.toNat = 39

/-- What the regex metacharacter `.` matches: anything but a line
terminator. -/
def isDotChar (c : Char) : Bool :=
  ¬(c = '\n' ∨ c = '\r' ∨ c.toNat = 8232 ∨ c.toNat = 8233)

/-- Length of the shortest inner match followed by closing quote `qc` and
`)`, the lazy `(.*?)\1\)` with `\1 = qc`. -/
def findLazyQ (qc : Char) : List Char → Option Nat
  | [] => none
  | c :: rest =>
    if c = qc ∧ rest.head? = some ')' then some 0
    else if isDotChar c then (findLazyQ qc rest).map (· + 1)
    else none

/-- Length of the shortest inner match followed by `)`, the lazy `(.*?)\1\)`
with an empty `\1`. -/
def findLazyN : List Char → Option Nat
  | [] => none
  | c :: rest =>
    if c = ')' then some 0
    else if isDotChar c then (findLazyN rest).map (· + 1)
    else none

/-- Try to match the `url(...)` token regex at the head of `l`; on success
return the captured quote, the captured inner reference and the total match
length. -/
def tryMatchAt (l : List Char) : Option (String × String × Nat) :=
  match l with
  | 'u' :: 'r' :: 'l' :: '(' :: rest =>
    match rest with
    | [] => none
    | c :: rest2 =>
      if isCssQuote c then
        match findLazyQ c rest2 with
        | some k => some (String.mk [c], String.mk (rest2.take k), 4 + 1 + k + 2)
        | none =>
          match findLazyN rest with
          | some k => some ("", String.mk (rest.take k), 4 + k + 1)
          | none => none
      else
        match findLazyN rest with
        | some k => some ("", String.mk (rest.take k), 4 + k + 1)
        | none => none
  | _ => none

/-- All `url(...)` tokens of the text, in order, as (quote, inner) pairs —
the extraction loop's successive `exec` matches. -/
def cssScanAux : Nat → List Char → List (String × String)
  | 0, _ => []
  | _ + 1, [] => []
  | fuel + 1, l =>
    match tryMatchAt l with
    | some (q, inner, n) => (q, inner) :: cssScanAux fuel (l.drop n)
    | none => cssScanAux fuel l.tail

/-- The `url(...)` tokens of a stylesheet text. -/
def cssTokens (css : String) : List (String × String) :=
  cssScanAux css.data.length css.data

/-- Global regex replace with a callback receiving (quote, inner, full
match) — `String.prototype.replace` with the `url(...)` regex. -/
def cssReplaceAux (f : String → String → String → String) :
    Nat → List Char → String
  | 0, l => String.mk l
  | _ + 1, [] => ""
  | fuel + 1, l =>
    match tryMatchAt l with
    | some (q, inner, n) =>
      f q inner (String.mk (l.take n)) ++ cssReplaceAux f fuel (l.drop n)
    | none => String.mk (l.take 1) ++ cssReplaceAux f fuel l.tail

/-- Replace every `url(...)` token of `css` through the callback `f`. -/
def cssReplaceUrls (f : String → String → String → String) (css : String) :
    String :=
  cssReplaceAux f css.data.length css.data

/-- The rewrite-pass callback of `processCssAssets`: excluded (`data:`,
fragment) references and references whose resolution throws keep the
original token; resolvable references are rewritten to
`url(<quote>../assets/<filename><quote>)`, preserving the captured quote. -/
def cssRewriteToken (cssUrl : String) (quote inner full : String) : String :=
  if startsWithS inner "data:" || startsWithS inner "#" then full
  else
    match resolveS inner cssUrl with
    | some abs =>
      "url(" ++ quote ++ "../assets/" ++ getFilenameFromUrl abs.href .other
        ++ quote ++ ")"
    | none => full

/-- One entry of `processCssAssets`' `assetsToDownload` list. -/
structure CssSub where
  url : String
  placeholder : String
deriving DecidableEq

/-- The extraction pass of `processCssAssets`: each non-excluded, resolvable
`url(...)` reference, resolved against the stylesheet URL, paired with its
`../assets/<filename>` placeholder. -/
def cssSubList (css : String) (cssUrl : String) : List CssSub :=
  (cssTokens css).filterMap (fun qr =>
    if startsWithS qr.2 "data:" || startsWithS qr.2 "#" then none
    else
      match resolveS qr.2 cssUrl with
      | some u =>
        some { url := u.href,
               placeholder := "../assets/" ++ getFilenameFromUrl u.href .other }
      | none => none)

/-- One iteration of the sub-download loop: claim the URL in the visited set
if new, fetch it as binary, store it under `assets/`, log the outcome (the
inner failure is caught and logged at WARNING), then splice the absolute URL
out of the working text. -/
def cssSubStep (fr : String → Option String) (p : String × CrawlState)
    (a : CssSub) : String × CrawlState :=
  let s :=
    if a.url ∈ p.2.visited then p.2
    else
      let s := { p.2 with visited := p.2.visited ++ [a.url] }
      match fetchBlobM fr a.url s with
      | (some blob, s) =>
        let s := { s with
          zip := assocSet s.zip ("assets/" ++ getFilenameFromUrl a.url .other) blob }
        logS s ("Downloaded CSS asset: " ++ takeS a.url 30 ++ "...") .INFO
      | (none, s) => logS s ("Failed CSS asset: " ++ a.url) .WARNING
  (replaceAllS p.1 a.url a.placeholder, s)

/-- `Crawler.processCssAssets`: extraction pass, sub-download loop, then the
token rewrite pass; returns the rewritten stylesheet text. -/
def processCssAssets (fr : String → Option String) (css : String)
    (cssUrl : String) (s : CrawlState) : String × CrawlState :=
  let r := (cssSubList css cssUrl).foldl (cssSubStep fr) (css, s)
  (cssReplaceUrls (cssRewriteToken cssUrl) r.1, r.2)

/-! ## Bounded downloader, from `Crawler.downloadAsset` / `processAssets` -/

/-- `Crawler.downloadAsset`: skip if already visited, otherwise claim the
URL, log the attempt, fetch (text for stylesheets and scripts, binary
otherwise, piping stylesheets through the CSS rewriter), register the asset,
store the content under `<folder>/<filename>`, and bump `assetsDownloaded`;
any failure is caught and logged at WARNING. -/
def downloadAsset (fr : String → Option String) (url : String) (t : AssetType)
    (s : CrawlState) : CrawlState :=
  if url ∈ s.visited then s
  else
    let s := { s with visited := s.visited ++ [url] }
    let s := logS s ("Fetching " ++ takeS url 50 ++ "...") .INFO
    let filename := getFilenameFromUrl url t
    let folder := getFolderForType t
    let zipPath := folder ++ "/" ++ filename
    let res : Option String × CrawlState :=
      match t with
      | .css =>
        match fetchTextM fr url s with
        | (some cssText, s) =>
          let r := processCssAssets fr cssText url s
          (some r.1, r.2)
        | (none, s) => (none, s)
      | .js => fetchTextM fr url s
      | _ => fetchBlobM fr url s
    match res with
    | (some content, s) =>
      let s := { s with assets := assocSet s.assets url ⟨url, filename, t, zipPath⟩ }
      let s := { s with zip := assocSet s.zip zipPath content }
      updStats s { s.stats with assetsDownloaded := s.stats.assetsDownloaded + 1 }
    | (none, s) =>
      logS s ("Failed to download " ++ url ++ ": " ++ proxyFailMsg url) .WARNING

/-- Does the element match the discovery selector
`img, link[rel="stylesheet"], script, video source, audio source`? -/
def matchesDiscovery (e : Elem) : Bool :=
  e.tag == "IMG"
    || (e.tag == "LINK" && getAttr e "rel" == some "stylesheet")
    || e.tag == "SCRIPT"
    || (e.tag == "SOURCE"
        && (e.parentTag == some "VIDEO" || e.parentTag == some "AUDIO"))

/-- The raw reference attribute and asset kind per matched element, following
the `forEach` branch order of `processAssets`. -/
def elemRefType (e : Elem) : String × AssetType :=
  if e.tag == "LINK" && getAttr e "rel" == some "stylesheet" then
    ((getAttr e "href").getD "", .css)
  else if e.tag == "SCRIPT" then ((getAttr e "src").getD "", .js)
  else if e.tag == "IMG" then ((getAttr e "src").getD "", .image)
  else if e.tag == "SOURCE" then ((getAttr e "src").getD "", .video)
  else ("", .other)

/-- One matched element's contribution to the download queue: skip empty,
`data:` and fragment references, resolve against the effective base URL and
keep the absolute href; resolution failures are skipped silently. -/
def discoverRef (base : String) (e : Elem) : Option (String × AssetType) :=
  if matchesDiscovery e then
    let st := elemRefType e
    if st.1 != "" && !startsWithS st.1 "data:" && !startsWithS st.1 "#" then
      (resolveS st.1 base).map (fun u => (u.href, st.2))
    else none
  else none

/-- The ordered download queue discovered from the document. -/
def discoverQueue (doc : List Elem) (base : String) :
    List (String × AssetType) :=
  doc.filterMap (discoverRef base)

/-- Chunks of at most five tasks, by fuel. -/
def chunks5Aux {α : Type} : Nat → List α → List (List α)
  | 0, _ => []
  | _ + 1, [] => []
  | fuel + 1, l => l.take 5 :: chunks5Aux fuel (l.drop 5)

/-- The source's `for (let i = 0; i < n; i += CONCURRENCY)` slicing with
`CONCURRENCY = 5`: successive chunks of at most five tasks. -/
def chunks5 {α : Type} (l : List α) : List (List α) := chunks5Aux l.length l

/-- One chunk's `Promise.all`: every task of the chunk runs (the model
serialises them in start order) before the next chunk begins. -/
def runChunk (fr : String → Option String) (s : CrawlState)
    (chunk : List (String × AssetType)) : CrawlState :=
  chunk.foldl (fun s it => downloadAsset fr it.1 it.2 s) s

/-- `Crawler.processAssets`: discover the queue, publish `assetsFound` once,
log the count, then run the chunked download loop. -/
def processAssets (fr : String → Option String) (doc : List Elem)
    (base : String) (s : CrawlState) : CrawlState :=
  let q := discoverQueue doc base
  let s := updStats s { s.stats with assetsFound := q.length }
  let s := logS s ("Found " ++ natToStr q.length ++ " linked assets. Downloading...") .INFO
  (chunks5 q).foldl (runChunk fr) s

/-! ## Document rewriter, from `Crawler.rewriteHtml` / `resolveUrl` -/

/-- `Crawler.resolveUrl`: resolve against the session page URL (note: not
against the document's declared base), falling back to the raw reference on
failure. -/
def resolveUrlS (pageHref : String) (rel : String) : String :=
  match resolveS rel pageHref with
  | some u => u.href
  | none => rel

/-- Does the element match `link[rel="stylesheet"]`? -/
def isStylesheetLink (e : Elem) : Bool :=
  e.tag == "LINK" && getAttr e "rel" == some "stylesheet"

/-- One rewrite pass of `rewriteHtml`: for elements matching `cond` with a
nonempty reference attribute, look the page-URL-resolved reference up in the
registry and, if found, point the attribute at `<folder>/<filename>`. -/
def rewritePassS (assets : List (String × Asset)) (pageHref : String)
    (cond : Elem → Bool) (attrName folder : String) (e : Elem) : Elem :=
  if cond e then
    match getAttr e attrName with
    | some h =>
      if h != "" then
        match assocGet assets (resolveUrlS pageHref h) with
        | some a => setAttr e attrName (folder ++ "/" ++ a.filename)
        | none => e
      else e
    | none => e
  else e

/-- The per-element effect of `rewriteHtml`'s four passes (stylesheet links,
scripts, images, then media sources) composed. -/
def rewriteElem (pageHref : String) (assets : List (String × Asset))
    (e : Elem) : Elem :=
  rewritePassS assets pageHref
    (fun e => (e.tag == "SOURCE" || e.tag == "VIDEO") && (getAttr e "src").isSome)
    "src" "assets"
    (rewritePassS assets pageHref
      (fun e => e.tag == "IMG" && (getAttr e "src").isSome) "src" "images"
      (rewritePassS assets pageHref
        (fun e => e.tag == "SCRIPT" && (getAttr e "src").isSome) "src" "js"
        (rewritePassS assets pageHref isStylesheetLink "href" "css" e)))

/-- `Crawler.rewriteHtml`: the four querySelectorAll passes in source
order. -/
def rewriteHtml (pageHref : String) (assets : List (String × Asset))
    (doc : List Elem) : List Elem :=
  ((((doc.map (rewritePassS assets pageHref isStylesheetLink "href" "css")).map
      (rewritePassS assets pageHref
        (fun e => e.tag == "SCRIPT" && (getAttr e "src").isSome) "src" "js")).map
      (rewritePassS assets pageHref
        (fun e => e.tag == "IMG" && (getAttr e "src").isSome) "src" "images")).map
      (rewritePassS assets pageHref
        (fun e => (e.tag == "SOURCE" || e.tag == "VIDEO") && (getAttr e "src").isSome)
        "src" "assets"))

/-! ## Session driver, from `Crawler.start` and `App.handleStart` -/

/-- The tail of `Crawler.start` after all downloads settle: rewrite the
document, archive `index.html`, and emit the terminal logs. -/
def finishM (w : World) (pageHref : String) (doc : List Elem)
    (s : CrawlState) : Bool × CrawlState :=
  let doc2 := rewriteHtml pageHref s.assets doc
  let s := { s with finalDoc := some doc2 }
  let s := { s with zip := assocSet s.zip "index.html" (w.serialize doc2) }
  let s := logS s "Generated index.html" .SUCCESS
  let s := logS s "Compressing files..." .INFO
  let s := logS s "ZIP file downloaded!" .SUCCESS
  (true, s)

/-- `Crawler.start` on an already-validated page URL: fetch and parse the
page, compute the effective base URL (`<base>` element if present, else the
page URL), run discovery and the bounded downloader, then finish (`finishM`).
The returned flag is session success (`false` models the catch block
rethrowing after the ERROR log). -/
def startM (w : World) (pageHref : String) : Bool × CrawlState :=
  let s := initState
  let s := logS s ("Starting crawl for " ++ pageHref ++ "...") .INFO
  match fetchTextM w.fetchResult pageHref s with
  | (none, s) => (false, logS s ("Crawl failed: " ++ proxyFailMsg pageHref) .ERROR)
  | (some html, s) =>
    let s := logS s "Main HTML downloaded successfully." .SUCCESS
    let s := updStats s { s.stats with pagesScanned := 1 }
    let doc := w.parseHtml html
    let baseRes : Option String :=
      match doc.find? (fun e => e.tag == "BASE") with
      | some b => (resolveS ((getAttr b "href").getD "") pageHref).map URLModel.href
      | none => some pageHref
    match baseRes with
    | none => (false, logS s "Crawl failed: Invalid base URL" .ERROR)
    | some baseUrl =>
      finishM w pageHref doc (processAssets w.fetchResult doc baseUrl s)

/-- The session entry point (`App.handleStart` constructing a `Crawler`):
the constructor validates the URL synchronously and throws
`"Invalid URL provided"` before anything else happens; on a valid URL the
crawl runs. -/
def runSession (w : World) (input : String) : Except String (Bool × CrawlState) :=
  match parseAbsolute input with
  | none => .error "Invalid URL provided"
  | some u => .ok (startM w u.href)

/-- The event trace of a session; a rejected URL produces no events at all. -/
def sessionTrace (w : World) (input : String) : List Event :=
  match runSession w input with
  | .error _ => []
  | .ok r => r.2.trace

/-- The final asset registry of a session. -/
def sessionAssets (w : World) (input : String) : List (String × Asset) :=
  match runSession w input with
  | .error _ => []
  | .ok r => r.2.assets

/-- The final archive contents of a session. -/
def sessionZip (w : World) (input : String) : List (String × String) :=
  match runSession w input with
  | .error _ => []
  | .ok r => r.2.zip

/-- The rewritten document of a session, when one was produced. -/
def sessionFinalDoc (w : World) (input : String) : Option (List Elem) :=
  match runSession w input with
  | .error _ => none
  | .ok r => r.2.finalDoc

/-! ## Trace observables -/

/-- Number of network requests for `u` in a trace. -/
def fetchCount (tr : List Event) (u : String) : Nat :=
  (tr.filter (fun e => e == Event.fetch u)).length

/-- The log entries of a trace, in order. -/
def logsOf (tr : List Event) : List LogEntry :=
  tr.filterMap (fun e => match e with | .log l => some l | _ => none)

/-- A stats snapshot respecting the `assetsDownloaded ≤ assetsFound`
invariant. -/
def statsOk (st : CrawlStats) : Prop := st.assetsDownloaded ≤ st.assetsFound

/-- Every stats snapshot of the trace respects the invariant. -/
def traceOk (tr : List Event) : Prop :=
  ∀ st, Event.statsUpdate st ∈ tr → statsOk st

/-! ## Concrete scenario data for the testable properties -/

/-- A page with one stylesheet that embeds one background image. -/
def w3C : World :=
  { fetchResult := fun u =>
      if u = "https://site.example/" then some "H"
      else if u = "https://site.example/style.css" then
        some "body { background-image: url(img.png); }"
      else if u = "https://site.example/img.png" then some "PNGDATA"
      else none
  , parseHtml := fun _ =>
      [⟨"LINK", none, [("rel", "stylesheet"), ("href", "style.css")]⟩]
  , serialize := fun _ => "S" }

/-- A page whose only script reference is the page's own URL. -/
def wSelf : World :=
  { fetchResult := fun u => if u = "https://ex.com/" then some "H" else none
  , parseHtml := fun _ => [⟨"SCRIPT", none, [("src", "https://ex.com/")]⟩]
  , serialize := fun _ => "S" }

/-- A page with a `<base>` element pointing at a different origin than the
page itself, and one relative image reference. -/
def w4C : World :=
  { fetchResult := fun u =>
      if u = "https://example.com/" then some "H"
      else if u = "https://cdn.example.com/img.png" then some "X"
      else none
  , parseHtml := fun _ =>
      [⟨"BASE", none, [("href", "https://cdn.example.com/")]⟩,
       ⟨"IMG", none, [("src", "img.png")]⟩]
  , serialize := fun _ => "S" }

/-- A page with two images on different hosts sharing a basename. -/
def w5C : World :=
  { fetchResult := fun u =>
      if u = "https://p.example/" then some "H"
      else if u = "https://a.example/x.png" then some "A"
      else if u = "https://b.example/x.png" then some "B"
      else none
  , parseHtml := fun _ =>
      [⟨"IMG", none, [("src", "https://a.example/x.png")]⟩,
       ⟨"IMG", none, [("src", "https://b.example/x.png")]⟩]
  , serialize := fun _ => "S" }

/-- A network oracle that fails exactly one script and serves one image. -/
def fr6C : String → Option String := fun u =>
  if u = "https://w.example/a.js" then none
  else if u = "https://w.example/b.png" then some "BB"
  else none

/-- A document with one script (which will fail) and one image. -/
def doc6C : List Elem :=
  [⟨"SCRIPT", none, [("src", "https://w.example/a.js")]⟩,
   ⟨"IMG", none, [("src", "https://w.example/b.png")]⟩]

/-- A session world around `doc6C`/`fr6C`: the page loads, the script fails
all relays, the image downloads. -/
def w6C : World :=
  { fetchResult := fun u =>
      if u = "https://w.example/" then some "H" else fr6C u
  , parseHtml := fun _ => doc6C
  , serialize := fun _ => "S" }

/-- A document with six images, to exercise the chunking. -/
def doc8C : List Elem :=
  [⟨"IMG", none, [("src", "https://w.example/1.png")]⟩,
   ⟨"IMG", none, [("src", "https://w.example/2.png")]⟩,
   ⟨"IMG", none, [("src", "https://w.example/3.png")]⟩,
   ⟨"IMG", none, [("src", "https://w.example/4.png")]⟩,
   ⟨"IMG", none, [("src", "https://w.example/5.png")]⟩,
   ⟨"IMG", none, [("src", "https://w.example/6.png")]⟩]

/-- A world with no successful fetches, used for closed instantiations. -/
def wAny : World := ⟨fun _ => none, fun _ => [], fun _ => ""⟩

/-- A state that has already visited one URL, used for closed
instantiations. -/
def s2w : CrawlState := { initState with visited := ["https://v.example/"] }

/-! ## Utility lemmas -/

theorem fetchCount_append (a b : List Event) (u : String) :
    fetchCount (a ++ b) u = fetchCount a u + fetchCount b u := by
  simp [fetchCount, List.filter_append]

theorem traceOk_nil : traceOk [] := by
  intro st h
  simp at h

theorem traceOk_append {a b : List Event} :
    traceOk (a ++ b) ↔ traceOk a ∧ traceOk b := by
  constructor
  · intro h
    exact ⟨fun st hm => h st (List.mem_append_left _ hm),
           fun st hm => h st (List.mem_append_right _ hm)⟩
  · rintro ⟨h1, h2⟩ st hm
    rcases List.mem_append.mp hm with h | h
    · exact h1 st h
    · exact h2 st h

theorem traceOk_single_log {m : String} {lv : LogLevel} :
    traceOk [.log ⟨m, lv⟩] := by
  intro st h
  simp at h

theorem traceOk_single_fetch {u : String} : traceOk [.fetch u] := by
  intro st h
  simp at h

theorem traceOk_single_stats {st : CrawlStats} (h : statsOk st) :
    traceOk [.statsUpdate st] := by
  intro st' hm
  simp at hm
  rwa [hm]

theorem assocGet_cons_pos {α : Type} {hd : String × α} {tl : List (String × α)}
    {p : String} (h : hd.1 = p) : assocGet (hd :: tl) p = some hd.2 := by
  simp [assocGet, List.find?_cons_of_pos, h]

theorem assocGet_cons_neg {α : Type} {hd : String × α} {tl : List (String × α)}
    {p : String} (h : ¬hd.1 = p) : assocGet (hd :: tl) p = assocGet tl p := by
  simp [assocGet, List.find?_cons_of_neg, h]

theorem assocGet_mapRepl {α : Type} (m : List (String × α)) (k p : String)
    (v : α) :
    assocGet (m.map (fun q => if q.1 = k then (k, v) else q)) p =
      if p = k then (assocGet m k).map (fun _ => v) else assocGet m p := by
  induction m with
  | nil => by_cases hp : p = k <;> simp [assocGet, hp]
  | cons hd tl ih =>
    by_cases hk : hd.1 = k
    · by_cases hp : p = k
      · subst hp
        rw [List.map_cons, if_pos hk, assocGet_cons_pos rfl,
          assocGet_cons_pos hk]
        simp
      · rw [List.map_cons, if_pos hk]
        rw [assocGet_cons_neg (show ¬((k, v) : String × α).1 = p from
          fun he => hp he.symm)]
        rw [ih, if_neg hp, if_neg hp]
        rw [assocGet_cons_neg (show ¬hd.1 = p from by
          rw [hk]; exact fun he => hp he.symm)]
    · by_cases hph : hd.1 = p
      · have hpk : ¬p = k := fun h => hk (hph.trans h)
        rw [List.map_cons, if_neg hk, assocGet_cons_pos hph,
          assocGet_cons_pos hph, if_neg hpk]
      · rw [List.map_cons, if_neg hk, assocGet_cons_neg hph,
          assocGet_cons_neg hph, ih, assocGet_cons_neg hk]

theorem assocGet_isSome_of_any {α : Type} {m : List (String × α)} {k : String}
    (h : (m.any fun p => p.1 = k) = true) : (assocGet m k).isSome := by
  induction m with
  | nil => simp at h
  | cons hd tl ih =>
    by_cases hk : hd.1 = k
    · rw [assocGet_cons_pos hk]
      rfl
    · rw [assocGet_cons_neg hk]
      simp only [List.any_cons, Bool.or_eq_true] at h
      rcases h with h | h
      · simp at h
        exact absurd h hk
      · exact ih h

theorem assocGet_append_single {α : Type} (m : List (String × α))
    (k p : String) (v : α) (hany : ¬(m.any fun q => q.1 = k) = true) :
    assocGet (m ++ [(k, v)]) p =
      if p = k then some v else assocGet m p := by
  induction m with
  | nil =>
    by_cases hp : p = k
    · simp [hp, assocGet_cons_pos]
    · rw [List.nil_append]
      rw [assocGet_cons_neg (by simpa using Ne.symm hp)]
      simp [assocGet, hp]
  | cons hd tl ih =>
    simp only [List.any_cons, Bool.or_eq_true, not_or] at hany
    by_cases hph : hd.1 = p
    · have hpk : ¬p = k := by
        intro h
        exact hany.1 (by simp [hph.trans h])
      rw [List.cons_append, assocGet_cons_pos hph, assocGet_cons_pos hph,
        if_neg hpk]
    · rw [List.cons_append, assocGet_cons_neg hph, assocGet_cons_neg hph]
      exact ih (by simpa using hany.2)

theorem assocGet_assocSet {α : Type} (m : List (String × α)) (k p : String)
    (v : α) :
    assocGet (assocSet m k v) p = if p = k then some v else assocGet m p := by
  unfold assocSet
  split
  · rename_i hany
    rw [assocGet_mapRepl]
    by_cases hp : p = k
    · rw [if_pos hp, if_pos hp]
      rcases ho : assocGet m k with _ | a
      · exact absurd (assocGet_isSome_of_any hany) (by simp [ho])
      · simp
    · rw [if_neg hp, if_neg hp]
  · rename_i hany
    exact assocGet_append_single m k p v hany

theorem assocSet_pairwise {α : Type} {m : List (String × α)} (k : String)
    (v : α) (h : m.Pairwise (fun a b => a.1 ≠ b.1)) :
    (assocSet m k v).Pairwise (fun a b => a.1 ≠ b.1) := by
  unfold assocSet
  split
  · refine List.Pairwise.map _ ?_ h
    intro a b hab
    by_cases h1 : a.1 = k <;> by_cases h2 : b.1 = k
    · exact absurd (h1.trans h2.symm) hab
    · simpa [h1, h2] using hab
    · simpa [h1, h2] using fun he => hab (h1.trans he.symm)
    · simpa [h1, h2] using hab
  · rename_i hany
    rw [List.pairwise_append]
    refine ⟨h, by simp, ?_⟩
    intro a ha b hb
    simp only [List.mem_singleton] at hb
    rw [hb]
    intro hco
    exact hany (by
      simp only [List.any_eq_true]
      exact ⟨a, ha, by simp [hco]⟩)

theorem assocSet_forall {α : Type} {m : List (String × α)} {k : String}
    {v : α} {P : String × α → Prop} (h : ∀ p ∈ m, P p) (hkv : P (k, v)) :
    ∀ p ∈ assocSet m k v, P p := by
  unfold assocSet
  split
  · intro p hp
    simp only [List.mem_map] at hp
    rcases hp with ⟨q, hq, hqe⟩
    by_cases hk : q.1 = k
    · simp only [if_pos hk] at hqe
      exact hqe ▸ hkv
    · simp only [if_neg hk] at hqe
      exact hqe ▸ (h q hq)
  · intro p hp
    rcases List.mem_append.mp hp with hm | hm
    · exact h p hm
    · simp at hm
      rw [hm]
      exact hkv

theorem chunks5Aux_flatten {α : Type} :
    ∀ (fuel : Nat) (l : List α), l.length ≤ fuel →
      (chunks5Aux fuel l).flatten = l := by
  intro fuel
  induction fuel with
  | zero =>
    intro l hl
    have : l = [] := List.eq_nil_of_length_eq_zero (Nat.le_zero.mp hl)
    simp [this, chunks5Aux]
  | succ n ih =>
    intro l hl
    cases l with
    | nil => simp [chunks5Aux]
    | cons a rest =>
      simp only [chunks5Aux, List.flatten_cons]
      rw [ih ((a :: rest).drop 5) (by
        rw [List.length_drop]
        simp only [List.length_cons] at hl ⊢
        omega)]
      exact List.take_append_drop 5 (a :: rest)

theorem chunks5_flatten {α : Type} (l : List α) : (chunks5 l).flatten = l :=
  chunks5Aux_flatten l.length l le_rfl

theorem chunks5Aux_length_le {α : Type} :
    ∀ (fuel : Nat) (l : List α), ∀ c ∈ chunks5Aux fuel l, c.length ≤ 5 := by
  intro fuel
  induction fuel with
  | zero => intro l c hc; simp [chunks5Aux] at hc
  | succ n ih =>
    intro l c hc
    cases l with
    | nil => simp [chunks5Aux] at hc
    | cons a rest =>
      simp only [chunks5Aux, List.mem_cons] at hc
      rcases hc with h | h
      · rw [h]
        simp
      · exact ih _ c h

theorem chunks5_length_le {α : Type} (l : List α) :
    ∀ c ∈ chunks5 l, c.length ≤ 5 :=
  chunks5Aux_length_le l.length l

theorem foldl_chunks_eq_foldl {α β : Type} (f : β → α → β) :
    ∀ (L : List (List α)) (b : β),
      L.foldl (fun b c => c.foldl f b) b = L.flatten.foldl f b := by
  intro L
  induction L with
  | nil => intro b; simp
  | cons c rest ih =>
    intro b
    simp [List.foldl_append, ih]

/-- The chunked download loop is the plain fold of `downloadAsset` over the
queue. -/
theorem chunks_run_eq_fold (fr : String → Option String)
    (q : List (String × AssetType)) (s : CrawlState) :
    (chunks5 q).foldl (runChunk fr) s =
      q.foldl (fun s it => downloadAsset fr it.1 it.2 s) s := by
  unfold runChunk
  rw [foldl_chunks_eq_foldl, chunks5_flatten]

theorem fetchBlobM_eq : @fetchBlobM = @fetchTextM := rfl


/-! ## Step relations -/

/-- The visited set only grows, the trace only extends, and any new fetch of
`u` is accounted for by `u` entering the visited set: the per-step invariant
behind "each URL is fetched at most once by the downloader". -/
def FetchBound (s s' : CrawlState) : Prop :=
  (∀ v, v ∈ s.visited → v ∈ s'.visited) ∧
  (∃ dt, s'.trace = s.trace ++ dt) ∧
  ∀ u, fetchCount s'.trace u ≤
    fetchCount s.trace u + (if u ∈ s'.visited ∧ u ∉ s.visited then 1 else 0)

theorem FetchBound.rfl (s : CrawlState) : FetchBound s s := by
  refine ⟨fun v hv => hv, ⟨[], by simp⟩, fun u => ?_⟩
  split <;> omega

theorem FetchBound.trans {s s' s'' : CrawlState} (h1 : FetchBound s s')
    (h2 : FetchBound s' s'') : FetchBound s s'' := by
  obtain ⟨hv1, ⟨d1, ht1⟩, hc1⟩ := h1
  obtain ⟨hv2, ⟨d2, ht2⟩, hc2⟩ := h2
  refine ⟨fun v hv => hv2 v (hv1 v hv), ⟨d1 ++ d2, by rw [ht2, ht1, List.append_assoc]⟩,
    fun u => ?_⟩
  have c1 := hc1 u
  have c2 := hc2 u
  by_cases hs : u ∈ s.visited
  · have h1m : u ∈ s'.visited := hv1 u hs
    rw [if_neg (fun h => h.2 hs)]
    rw [if_neg (fun h => h.2 hs)] at c1
    rw [if_neg (fun h => h.2 h1m)] at c2
    omega
  · by_cases hm : u ∈ s'.visited
    · rw [if_neg (fun h => h.2 hm)] at c2
      rw [if_pos ⟨hm, hs⟩] at c1
      rw [if_pos ⟨hv2 u hm, hs⟩]
      omega
    · rw [if_neg (fun h => hm h.1)] at c1
      by_cases hm2 : u ∈ s''.visited
      · rw [if_pos ⟨hm2, hm⟩] at c2
        rw [if_pos ⟨hm2, hs⟩]
        omega
      · rw [if_neg (fun h => hm2 h.1)] at c2
        rw [if_neg (fun h => hm2 h.1)]
        omega

/-- A step whose trace extension contains no fetch events and whose visited
set is unchanged is fetch-bounded. -/
theorem FetchBound.of_no_fetch {s s' : CrawlState} (hv : s'.visited = s.visited)
    (dt : List Event) (ht : s'.trace = s.trace ++ dt)
    (hn : ∀ u, fetchCount dt u = 0) : FetchBound s s' := by
  refine ⟨fun v h => hv ▸ h, ⟨dt, ht⟩, fun u => ?_⟩
  rw [ht, fetchCount_append, hn u]
  split <;> omega

/-- Registry well-formedness: entries are keyed by their asset's
`originalUrl`, and keys are pairwise distinct. -/
def AssetsInv (m : List (String × Asset)) : Prop :=
  m.Pairwise (fun a b => a.1 ≠ b.1) ∧ ∀ p ∈ m, p.2.originalUrl = p.1

theorem AssetsInv.nil : AssetsInv [] := ⟨List.Pairwise.nil, by simp⟩

theorem AssetsInv.set {m : List (String × Asset)} (h : AssetsInv m)
    (url : String) (a : Asset) (ha : a.originalUrl = url) :
    AssetsInv (assocSet m url a) :=
  ⟨assocSet_pairwise url a h.1, assocSet_forall h.2 ha⟩

theorem fetchCount_nil (u : String) : fetchCount [] u = 0 := rfl

theorem fetchCount_cons (e : Event) (tr : List Event) (u : String) :
    fetchCount (e :: tr) u
      = (if e = Event.fetch u then 1 else 0) + fetchCount tr u := by
  unfold fetchCount
  rw [List.filter_cons]
  by_cases h : e = Event.fetch u
  · rw [if_pos (by simp [h]), if_pos h, List.length_cons]
    omega
  · rw [if_neg (by simp [h]), if_neg h]
    omega

theorem fetchCount_cons_fetch (v : String) (tr : List Event) (u : String) :
    fetchCount (Event.fetch v :: tr) u
      = (if u = v then 1 else 0) + fetchCount tr u := by
  rw [fetchCount_cons]
  congr 1
  by_cases h : u = v
  · rw [if_pos (by rw [h]), if_pos h]
  · rw [if_neg (by simp [Event.fetch.injEq]; exact fun he => h he.symm),
      if_neg h]

theorem fetchCount_cons_log (l : LogEntry) (tr : List Event) (u : String) :
    fetchCount (Event.log l :: tr) u = fetchCount tr u := by
  rw [fetchCount_cons, if_neg (by simp)]
  omega

theorem fetchCount_cons_stats (st : CrawlStats) (tr : List Event) (u : String) :
    fetchCount (Event.statsUpdate st :: tr) u = fetchCount tr u := by
  rw [fetchCount_cons, if_neg (by simp)]
  omega

/-- A fetch-bounded step that claims `url` and fetches at most `url`. -/
theorem FetchBound.claim_fetch {s s' : CrawlState} (url : String)
    (hnv : url ∉ s.visited) (hv : s'.visited = s.visited ++ [url])
    (dt : List Event) (ht : s'.trace = s.trace ++ dt)
    (hc : ∀ u, fetchCount dt u ≤ if u = url then 1 else 0) :
    FetchBound s s' := by
  refine ⟨fun v h => by rw [hv]; exact List.mem_append_left _ h,
    ⟨dt, ht⟩, fun u => ?_⟩
  rw [ht, fetchCount_append]
  by_cases hu : u = url
  · subst hu
    have hmem : u ∈ s'.visited := by
      rw [hv]
      exact List.mem_append_right _ (by simp)
    rw [if_pos (show u ∈ s'.visited ∧ u ∉ s.visited from ⟨hmem, hnv⟩)]
    have hcu := hc u
    rw [if_pos (Eq.refl u)] at hcu
    omega
  · have hcu := hc u
    rw [if_neg hu] at hcu
    split <;> omega

/-! ## Facts about the CSS sub-download loop -/

theorem cssSubStep_facts (fr : String → Option String) (p : String × CrawlState)
    (a : CssSub) :
    (cssSubStep fr p a).2.stats.pagesScanned = p.2.stats.pagesScanned ∧
    (cssSubStep fr p a).2.stats.assetsFound = p.2.stats.assetsFound ∧
    (cssSubStep fr p a).2.stats.assetsDownloaded = p.2.stats.assetsDownloaded ∧
    (cssSubStep fr p a).2.assets = p.2.assets ∧
    (cssSubStep fr p a).2.finalDoc = p.2.finalDoc ∧
    (∀ pth c, assocGet (cssSubStep fr p a).2.zip pth = some c →
      assocGet p.2.zip pth = some c ∨ ∃ r, pth = "assets/" ++ r) ∧
    (∃ dt, (cssSubStep fr p a).2.trace = p.2.trace ++ dt) ∧
    (traceOk p.2.trace → statsOk p.2.stats →
      traceOk (cssSubStep fr p a).2.trace) ∧
    FetchBound p.2 (cssSubStep fr p a).2 := by
  unfold cssSubStep
  by_cases hv : a.url ∈ p.2.visited
  · simp only [if_pos hv]
    exact ⟨by first | rfl | trivial, by first | rfl | trivial,
      by first | rfl | trivial, by first | rfl | trivial,
      by first | rfl | trivial, fun pth c h => Or.inl h, ⟨[], by simp⟩,
      fun h _ => h, FetchBound.rfl _⟩
  · simp only [if_neg hv]
    rcases h : fr a.url with _ | b <;>
      simp only [fetchBlobM, emit, h, logS, updStats]
    · refine ⟨by first | rfl | trivial, by first | rfl | trivial,
        by first | rfl | trivial, by first | rfl | trivial,
        by first | rfl | trivial, fun pth c hz => Or.inl hz,
        ⟨[.fetch a.url, .log ⟨"Failed CSS asset: " ++ a.url, .WARNING⟩],
          by simp⟩, ?_, ?_⟩
      · intro hok _
        intro st hm
        simp only [List.append_assoc, List.mem_append, List.mem_singleton,
          List.mem_cons] at hm
        rcases hm with hm | hm
        · exact hok st hm
        · simp at hm
      · refine FetchBound.claim_fetch a.url hv rfl
          [.fetch a.url, .log ⟨"Failed CSS asset: " ++ a.url, .WARNING⟩]
          (by simp) (fun u => ?_)
        rw [fetchCount_cons_fetch, fetchCount_cons_log, fetchCount_nil]
        by_cases hu : u = a.url <;> simp [hu]
    · refine ⟨by first | rfl | trivial, by first | rfl | trivial,
        by first | rfl | trivial, by first | rfl | trivial,
        by first | rfl | trivial, ?_, ?_, ?_, ?_⟩
      · intro pth c hz
        rw [assocGet_assocSet] at hz
        by_cases hp : pth = "assets/" ++ getFilenameFromUrl a.url .other
        · exact Or.inr ⟨getFilenameFromUrl a.url .other, hp⟩
        · rw [if_neg hp] at hz
          exact Or.inl hz
      · exact ⟨[.fetch a.url,
          .statsUpdate { p.2.stats with totalSize := p.2.stats.totalSize + b.length },
          .log ⟨"Downloaded CSS asset: " ++ takeS a.url 30 ++ "...", .INFO⟩],
          by simp⟩
      · intro hok hst
        intro st hm
        simp only [List.append_assoc, List.mem_append, List.mem_singleton,
          List.mem_cons] at hm
        rcases hm with hm | hm
        · exact hok st hm
        · simp at hm
          subst hm
          simpa [statsOk] using hst
      · refine FetchBound.claim_fetch a.url hv rfl
          [.fetch a.url,
           .statsUpdate { p.2.stats with totalSize := p.2.stats.totalSize + b.length },
           .log ⟨"Downloaded CSS asset: " ++ takeS a.url 30 ++ "...", .INFO⟩]
          (by simp) (fun u => ?_)
        rw [fetchCount_cons_fetch, fetchCount_cons_stats, fetchCount_cons_log,
          fetchCount_nil]
        by_cases hu : u = a.url <;> simp [hu]

theorem downloadAsset_visited {fr : String → Option String} {url : String}
    {t : AssetType} {s : CrawlState} (h : url ∈ s.visited) :
    downloadAsset fr url t s = s := by
  simp [downloadAsset, h]

theorem append_ext_trans {α : Type} {a b c : List α}
    (h1 : ∃ d, b = a ++ d) (h2 : ∃ d, c = b ++ d) : ∃ d, c = a ++ d := by
  obtain ⟨d1, rfl⟩ := h1
  obtain ⟨d2, rfl⟩ := h2
  exact ⟨d1 ++ d2, by rw [List.append_assoc]⟩

theorem app2E (tr : List Event) (a b : Event) :
    (tr ++ [a]) ++ [b] = tr ++ [a, b] := by simp

theorem app3E (tr : List Event) (a b c : Event) :
    ((tr ++ [a]) ++ [b]) ++ [c] = tr ++ [a, b, c] := by simp

theorem app4E (tr : List Event) (a b c d : Event) :
    (((tr ++ [a]) ++ [b]) ++ [c]) ++ [d] = tr ++ [a, b, c, d] := by simp

/-! ## Facts about the CSS rewriter's state effects -/

theorem cssFold_facts (fr : String → Option String) :
    ∀ (subs : List CssSub) (css : String) (s : CrawlState),
      (subs.foldl (cssSubStep fr) (css, s)).2.stats.pagesScanned
          = s.stats.pagesScanned ∧
      (subs.foldl (cssSubStep fr) (css, s)).2.stats.assetsFound
          = s.stats.assetsFound ∧
      (subs.foldl (cssSubStep fr) (css, s)).2.stats.assetsDownloaded
          = s.stats.assetsDownloaded ∧
      (subs.foldl (cssSubStep fr) (css, s)).2.assets = s.assets ∧
      (subs.foldl (cssSubStep fr) (css, s)).2.finalDoc = s.finalDoc ∧
      (∀ pth c, assocGet (subs.foldl (cssSubStep fr) (css, s)).2.zip pth = some c →
        assocGet s.zip pth = some c ∨ ∃ r, pth = "assets/" ++ r) ∧
      (∃ dt, (subs.foldl (cssSubStep fr) (css, s)).2.trace = s.trace ++ dt) ∧
      (traceOk s.trace → statsOk s.stats →
        traceOk (subs.foldl (cssSubStep fr) (css, s)).2.trace) ∧
      FetchBound s (subs.foldl (cssSubStep fr) (css, s)).2 := by
  intro subs
  induction subs with
  | nil =>
    intro css s
    exact ⟨rfl, rfl, rfl, rfl, rfl, fun pth c h => Or.inl h, ⟨[], by simp⟩,
      fun h _ => h, FetchBound.rfl _⟩
  | cons a rest ih =>
    intro css s
    rw [List.foldl_cons]
    obtain ⟨e1, e2, e3, e4, e5, hz1, ⟨d1, ht1⟩, hok1, hfb1⟩ :=
      cssSubStep_facts fr (css, s) a
    obtain ⟨f1, f2, f3, f4, f5, hz2, ⟨d2, ht2⟩, hok2, hfb2⟩ :=
      ih (cssSubStep fr (css, s) a).1 (cssSubStep fr (css, s) a).2
    refine ⟨f1.trans e1, f2.trans e2, f3.trans e3, f4.trans e4, f5.trans e5,
      ?_, ⟨d1 ++ d2, ?_⟩, ?_, FetchBound.trans hfb1 hfb2⟩
    · intro pth c hc
      rcases hz2 pth c hc with h' | h'
      · exact hz1 pth c h'
      · exact Or.inr h'
    · rw [ht2, ht1, List.append_assoc]
    · intro hok hst
      refine hok2 (hok1 hok hst) ?_
      simpa only [statsOk, e2, e3] using hst

theorem processCss_facts (fr : String → Option String) (css cssUrl : String)
    (s : CrawlState) :
    (processCssAssets fr css cssUrl s).2.stats.pagesScanned
        = s.stats.pagesScanned ∧
    (processCssAssets fr css cssUrl s).2.stats.assetsFound
        = s.stats.assetsFound ∧
    (processCssAssets fr css cssUrl s).2.stats.assetsDownloaded
        = s.stats.assetsDownloaded ∧
    (processCssAssets fr css cssUrl s).2.assets = s.assets ∧
    (processCssAssets fr css cssUrl s).2.finalDoc = s.finalDoc ∧
    (∀ pth c, assocGet (processCssAssets fr css cssUrl s).2.zip pth = some c →
      assocGet s.zip pth = some c ∨ ∃ r, pth = "assets/" ++ r) ∧
    (∃ dt, (processCssAssets fr css cssUrl s).2.trace = s.trace ++ dt) ∧
    (traceOk s.trace → statsOk s.stats →
      traceOk (processCssAssets fr css cssUrl s).2.trace) ∧
    FetchBound s (processCssAssets fr css cssUrl s).2 :=
  cssFold_facts fr (cssSubList css cssUrl) css s

/-! ## Branch equations for `downloadAsset` -/

theorem downloadAsset_fail (fr : String → Option String) (url : String)
    (t : AssetType) (s : CrawlState) (hv : url ∉ s.visited)
    (h : fr url = none) :
    downloadAsset fr url t s =
      { s with
        visited := s.visited ++ [url],
        trace := s.trace ++
          [.log ⟨"Fetching " ++ takeS url 50 ++ "...", .INFO⟩, .fetch url,
           .log ⟨"Failed to download " ++ url ++ ": " ++ proxyFailMsg url,
             .WARNING⟩] } := by
  cases t <;>
    simp [downloadAsset, hv, fetchTextM, fetchBlobM, logS, emit, updStats, h]

theorem downloadAsset_noncss_some (fr : String → Option String) (url : String)
    (t : AssetType) (s : CrawlState) (b : String) (hne : t ≠ .css)
    (hv : url ∉ s.visited) (h : fr url = some b) :
    downloadAsset fr url t s =
      { s with
        visited := s.visited ++ [url],
        assets := assocSet s.assets url
          ⟨url, getFilenameFromUrl url t, t,
            getFolderForType t ++ "/" ++ getFilenameFromUrl url t⟩,
        zip := assocSet s.zip
          (getFolderForType t ++ "/" ++ getFilenameFromUrl url t) b,
        stats := { s.stats with
          assetsDownloaded := s.stats.assetsDownloaded + 1,
          totalSize := s.stats.totalSize + b.length },
        trace := s.trace ++
          [.log ⟨"Fetching " ++ takeS url 50 ++ "...", .INFO⟩, .fetch url,
           .statsUpdate { s.stats with totalSize := s.stats.totalSize + b.length },
           .statsUpdate { s.stats with
             assetsDownloaded := s.stats.assetsDownloaded + 1,
             totalSize := s.stats.totalSize + b.length }] } := by
  cases t
  case css => exact absurd rfl hne
  all_goals
    simp [downloadAsset, hv, fetchTextM, fetchBlobM, logS, emit, updStats, h]

theorem downloadAsset_css_some (fr : String → Option String) (url : String)
    (s : CrawlState) (b : String) (hv : url ∉ s.visited)
    (h : fr url = some b) :
    downloadAsset fr url .css s =
      (let s3 : CrawlState :=
        { s with
          visited := s.visited ++ [url],
          stats := { s.stats with totalSize := s.stats.totalSize + b.length },
          trace := s.trace ++
            [.log ⟨"Fetching " ++ takeS url 50 ++ "...", .INFO⟩, .fetch url,
             .statsUpdate { s.stats with
               totalSize := s.stats.totalSize + b.length }] }
       let r := processCssAssets fr b url s3
       { r.2 with
         assets := assocSet r.2.assets url
           ⟨url, getFilenameFromUrl url .css, .css,
             getFolderForType .css ++ "/" ++ getFilenameFromUrl url .css⟩,
         zip := assocSet r.2.zip
           (getFolderForType .css ++ "/" ++ getFilenameFromUrl url .css) r.1,
         stats := { r.2.stats with
           assetsDownloaded := r.2.stats.assetsDownloaded + 1 },
         trace := r.2.trace ++
           [.statsUpdate { r.2.stats with
             assetsDownloaded := r.2.stats.assetsDownloaded + 1 }] }) := by
  simp [downloadAsset, hv, fetchTextM, logS, emit, updStats, h]

/-- Combined state facts for one download task, relative to its start
state. -/
theorem downloadAsset_facts (fr : String → Option String) (url : String)
    (t : AssetType) (s : CrawlState) :
    (downloadAsset fr url t s).stats.pagesScanned = s.stats.pagesScanned ∧
    (downloadAsset fr url t s).stats.assetsFound = s.stats.assetsFound ∧
    s.stats.assetsDownloaded ≤ (downloadAsset fr url t s).stats.assetsDownloaded ∧
    (downloadAsset fr url t s).stats.assetsDownloaded ≤ s.stats.assetsDownloaded + 1 ∧
    (AssetsInv s.assets → AssetsInv (downloadAsset fr url t s).assets) ∧
    (downloadAsset fr url t s).finalDoc = s.finalDoc ∧
    (∃ dt, (downloadAsset fr url t s).trace = s.trace ++ dt) ∧
    (traceOk s.trace → s.stats.assetsDownloaded < s.stats.assetsFound →
      traceOk (downloadAsset fr url t s).trace) ∧
    FetchBound s (downloadAsset fr url t s) := by
  by_cases hv : url ∈ s.visited
  · rw [downloadAsset_visited hv]
    exact ⟨rfl, rfl, le_rfl, by omega, fun hA => hA, rfl, ⟨[], by simp⟩,
      fun hok _ => hok, FetchBound.rfl _⟩
  · rcases h : fr url with _ | b
    · rw [downloadAsset_fail fr url t s hv h]
      refine ⟨rfl, rfl, le_rfl, Nat.le_succ _, fun hA => hA, rfl, ⟨_, rfl⟩,
        ?_, ?_⟩
      · intro hok _
        exact traceOk_append.mpr ⟨hok, by intro st hm; simp at hm⟩
      · refine FetchBound.claim_fetch url hv rfl _ rfl (fun u => ?_)
        rw [fetchCount_cons_log, fetchCount_cons_fetch, fetchCount_cons_log,
          fetchCount_nil]
        by_cases hu : u = url <;> simp [hu]
    · by_cases hcss : t = .css
      · subst hcss
        rw [downloadAsset_css_some fr url s b hv h]
        obtain ⟨p1, p2, p3, p4, p5, pz, ⟨dp, hdp⟩, pok, pfb⟩ :=
          processCss_facts fr b url
            { s with
              visited := s.visited ++ [url],
              stats := { s.stats with totalSize := s.stats.totalSize + b.length },
              trace := s.trace ++
                [.log ⟨"Fetching " ++ takeS url 50 ++ "...", .INFO⟩, .fetch url,
                 .statsUpdate { s.stats with
                   totalSize := s.stats.totalSize + b.length }] }
        dsimp only at p1 p2 p3 p4 p5 hdp ⊢
        refine ⟨p1, p2, by omega, by omega, ?_, p5, ?_, ?_, ?_⟩
        · intro hA
          rw [p4]
          exact hA.set url _ rfl
        · exact append_ext_trans (append_ext_trans ⟨_, rfl⟩ ⟨dp, hdp⟩) ⟨_, rfl⟩
        · intro hok hlt
          refine traceOk_append.mpr ⟨?_, ?_⟩
          · refine pok ?_ (Nat.le_of_lt hlt)
            refine traceOk_append.mpr ⟨hok, ?_⟩
            intro st hm
            simp at hm
            subst hm
            exact Nat.le_of_lt hlt
          · exact traceOk_single_stats (by dsimp only [statsOk]; omega)
        · refine FetchBound.trans (FetchBound.trans
            (FetchBound.claim_fetch url hv rfl _ rfl (fun u => ?_)) pfb)
            (FetchBound.of_no_fetch rfl _ rfl (fun u => ?_))
          · rw [fetchCount_cons_log, fetchCount_cons_fetch,
              fetchCount_cons_stats, fetchCount_nil]
            by_cases hu : u = url <;> simp [hu]
          · rw [fetchCount_cons_stats, fetchCount_nil]
      · rw [downloadAsset_noncss_some fr url t s b hcss hv h]
        refine ⟨rfl, rfl, Nat.le_succ _, le_rfl, ?_, rfl, ⟨_, rfl⟩, ?_, ?_⟩
        · intro hA
          exact hA.set url _ rfl
        · intro hok hlt
          refine traceOk_append.mpr ⟨hok, ?_⟩
          intro st hm
          simp at hm
          rcases hm with hm | hm
          · subst hm
            exact Nat.le_of_lt hlt
          · subst hm
            exact hlt
        · refine FetchBound.claim_fetch url hv rfl _ rfl (fun u => ?_)
          rw [fetchCount_cons_log, fetchCount_cons_fetch,
            fetchCount_cons_stats, fetchCount_cons_stats, fetchCount_nil]
          by_cases hu : u = url <;> simp [hu]

/-- Combined state facts for a fold of download tasks. -/
theorem downloadFold_facts (fr : String → Option String) :
    ∀ (items : List (String × AssetType)) (s : CrawlState),
      (items.foldl (fun s it => downloadAsset fr it.1 it.2 s) s).stats.pagesScanned
          = s.stats.pagesScanned ∧
      (items.foldl (fun s it => downloadAsset fr it.1 it.2 s) s).stats.assetsFound
          = s.stats.assetsFound ∧
      s.stats.assetsDownloaded ≤
        (items.foldl (fun s it => downloadAsset fr it.1 it.2 s) s).stats.assetsDownloaded ∧
      (items.foldl (fun s it => downloadAsset fr it.1 it.2 s) s).stats.assetsDownloaded
          ≤ s.stats.assetsDownloaded + items.length ∧
      (AssetsInv s.assets →
        AssetsInv (items.foldl (fun s it => downloadAsset fr it.1 it.2 s) s).assets) ∧
      (items.foldl (fun s it => downloadAsset fr it.1 it.2 s) s).finalDoc
          = s.finalDoc ∧
      (∃ dt, (items.foldl (fun s it => downloadAsset fr it.1 it.2 s) s).trace
          = s.trace ++ dt) ∧
      (traceOk s.trace →
        s.stats.assetsDownloaded + items.length ≤ s.stats.assetsFound →
        traceOk (items.foldl (fun s it => downloadAsset fr it.1 it.2 s) s).trace) ∧
      FetchBound s (items.foldl (fun s it => downloadAsset fr it.1 it.2 s) s) := by
  intro items
  induction items with
  | nil =>
    intro s
    exact ⟨rfl, rfl, le_rfl, by simp, fun hA => hA, rfl, ⟨[], by simp⟩,
      fun hok _ => hok, FetchBound.rfl _⟩
  | cons a rest ih =>
    intro s
    rw [List.foldl_cons]
    obtain ⟨e1, e2, e3, e4, e5, e6, he7, e8, e9⟩ :=
      downloadAsset_facts fr a.1 a.2 s
    obtain ⟨f1, f2, f3, f4, f5, f6, hf7, f8, f9⟩ :=
      ih (downloadAsset fr a.1 a.2 s)
    refine ⟨f1.trans e1, f2.trans e2, le_trans e3 f3, ?_, fun hA => f5 (e5 hA),
      f6.trans e6, append_ext_trans he7 hf7, ?_, FetchBound.trans e9 f9⟩
    · rw [List.length_cons]
      omega
    · intro hok hle
      rw [List.length_cons] at hle
      refine f8 (e8 hok (by omega)) ?_
      rw [e2]
      omega

/-- Combined state facts for `processAssets`, from a state with no downloads
recorded yet (as in a fresh session). -/
theorem processAssets_facts (fr : String → Option String) (doc : List Elem)
    (base : String) (s : CrawlState)
    (hdl : s.stats.assetsDownloaded = 0) :
    (processAssets fr doc base s).stats.pagesScanned = s.stats.pagesScanned ∧
    (processAssets fr doc base s).stats.assetsFound
        = (discoverQueue doc base).length ∧
    (processAssets fr doc base s).stats.assetsDownloaded
        ≤ (discoverQueue doc base).length ∧
    (AssetsInv s.assets → AssetsInv (processAssets fr doc base s).assets) ∧
    (processAssets fr doc base s).finalDoc = s.finalDoc ∧
    (∃ dt, (processAssets fr doc base s).trace = s.trace ++ dt) ∧
    (traceOk s.trace → traceOk (processAssets fr doc base s).trace) ∧
    FetchBound s (processAssets fr doc base s) := by
  unfold processAssets
  rw [chunks_run_eq_fold]
  obtain ⟨f1, f2, f3, f4, f5, f6, hf7, f8, f9⟩ :=
    downloadFold_facts fr (discoverQueue doc base)
      (logS (updStats s { s.stats with assetsFound := (discoverQueue doc base).length })
        ("Found " ++ natToStr (discoverQueue doc base).length
          ++ " linked assets. Downloading...") .INFO)
  dsimp only [logS, emit, updStats] at f1 f2 f3 f4 f5 f6 hf7 f8 f9 ⊢
  refine ⟨f1, f2, ?_, f5, f6, append_ext_trans ⟨_, app2E _ _ _⟩ hf7, ?_, ?_⟩
  · omega
  · intro hok
    refine f8 ?_ (by omega)
    rw [app2E]
    refine traceOk_append.mpr ⟨hok, ?_⟩
    intro st hm
    simp at hm
    subst hm
    simp [statsOk, hdl]
  · refine FetchBound.trans ?_ f9
    refine FetchBound.of_no_fetch rfl _ (app2E _ _ _) (fun u => ?_)
    rw [fetchCount_cons_stats, fetchCount_cons_log, fetchCount_nil]

/-! ## Session-level facts -/

theorem finishM_facts (w : World) (pageHref : String) (doc : List Elem)
    (s : CrawlState) :
    (finishM w pageHref doc s).2.trace = s.trace ++
      [.log ⟨"Generated index.html", .SUCCESS⟩,
       .log ⟨"Compressing files...", .INFO⟩,
       .log ⟨"ZIP file downloaded!", .SUCCESS⟩] ∧
    (finishM w pageHref doc s).2.assets = s.assets ∧
    (finishM w pageHref doc s).2.stats = s.stats := by
  refine ⟨?_, rfl, rfl⟩
  simp [finishM, logS, emit]

theorem coreFacts (w : World) (pageHref : String) (doc : List Elem)
    (base : String) (fr : String → Option String) (S : CrawlState)
    (hok : traceOk S.trace) (hdl : S.stats.assetsDownloaded = 0)
    (hA : AssetsInv S.assets) :
    traceOk (finishM w pageHref doc (processAssets fr doc base S)).2.trace ∧
    AssetsInv (finishM w pageHref doc (processAssets fr doc base S)).2.assets := by
  obtain ⟨q1, q2, q3, q4, q5, hq6, q7, q8⟩ := processAssets_facts fr doc base S hdl
  obtain ⟨t1, t2, t3⟩ := finishM_facts w pageHref doc (processAssets fr doc base S)
  constructor
  · rw [t1]
    refine traceOk_append.mpr ⟨q7 hok, ?_⟩
    intro st hm
    simp at hm
  · rw [t2]
    exact q4 hA

theorem startM_facts (w : World) (pageHref : String) :
    traceOk (startM w pageHref).2.trace ∧
    AssetsInv (startM w pageHref).2.assets := by
  unfold startM
  rcases h : w.fetchResult pageHref with _ | html <;>
    simp only [fetchTextM, emit, updStats, logS, h, initState]
  · refine ⟨?_, AssetsInv.nil⟩
    intro st hm
    simp at hm
  · rcases hfind : (w.parseHtml html).find? (fun e => e.tag == "BASE") with _ | bel <;>
      simp only [hfind]
    · exact coreFacts w pageHref _ _ _ _
        (by
          intro st hm
          simp at hm
          rcases hm with hm | hm <;> subst hm <;> simp [statsOk])
        rfl AssetsInv.nil
    · rcases hres : resolveS ((getAttr bel "href").getD "") pageHref with _ | bu <;>
        simp only [hres, Option.map_none', Option.map_some']
      · refine ⟨?_, AssetsInv.nil⟩
        intro st hm
        simp at hm
        rcases hm with hm | hm <;> subst hm <;> simp [statsOk]
      · exact coreFacts w pageHref _ _ _ _
          (by
            intro st hm
            simp at hm
            rcases hm with hm | hm <;> subst hm <;> simp [statsOk])
          rfl AssetsInv.nil

/-- `processAssets` is fetch-bounded from any start state. -/
theorem processAssets_fetchBound (fr : String → Option String)
    (doc : List Elem) (base : String) (s : CrawlState) :
    FetchBound s (processAssets fr doc base s) := by
  unfold processAssets
  rw [chunks_run_eq_fold]
  have f9 := (downloadFold_facts fr (discoverQueue doc base)
    (logS (updStats s { s.stats with assetsFound := (discoverQueue doc base).length })
      ("Found " ++ natToStr (discoverQueue doc base).length
        ++ " linked assets. Downloading...") .INFO)).2.2.2.2.2.2.2.2
  dsimp only [logS, emit, updStats] at f9 ⊢
  refine FetchBound.trans ?_ f9
  refine FetchBound.of_no_fetch rfl _ (app2E _ _ _) (fun u => ?_)
  rw [fetchCount_cons_stats, fetchCount_cons_log, fetchCount_nil]

/-! ## Claim theorems -/

/-- C1: for every session (any network oracle, any parsed document), after
every `CrawlStats` update surfaced to the stats callback — including those
issued while a stylesheet's embedded sub-assets are fetched — the inequality
`assetsDownloaded ≤ assetsFound` holds. -/
theorem c1_stats_invariant (w : World) (input : String) :
    traceOk (sessionTrace w input) := by
  unfold sessionTrace runSession
  rcases h : parseAbsolute input with _ | u <;> simp only [h]
  · exact traceOk_nil
  · exact (startM_facts w u.href).1

/-- C5 (amended): any two distinct Assets registered during one session have
distinct `originalUrl`s (the registry is keyed by URL); archive paths are
not required to be distinct — see the counterexample. -/
theorem c5_amended_unique_urls (w : World) (input : String) :
    (sessionAssets w input).Pairwise
      (fun a b => a.2.originalUrl ≠ b.2.originalUrl) := by
  have hA : AssetsInv (sessionAssets w input) := by
    unfold sessionAssets runSession
    rcases h : parseAbsolute input with _ | u <;> simp only [h]
    · exact AssetsInv.nil
    · exact (startM_facts w u.href).2
  obtain ⟨hp, hk⟩ := hA
  refine List.Pairwise.imp_of_mem ?_ hp
  intro a b ha hb hne heq
  exact hne (by rw [← hk a ha, ← hk b hb, heq])

/-- C5 counterexample: two distinct URLs with the same basename produce two
distinct registered Assets whose archive paths coincide, refuting
"every Asset's archive path is unique". -/
theorem c5_counterexample :
    (sessionAssets w5C "https://p.example/").map (fun p => p.2.originalUrl)
        = ["https://a.example/x.png", "https://b.example/x.png"] ∧
    (sessionAssets w5C "https://p.example/").map (fun p => p.2.path)
        = ["images/x.png", "images/x.png"] := by
  exact ⟨by rfl, by rfl⟩

/-- C2 counterexample: the initial page fetch is not recorded in the visited
set, so a page that lists its own URL as a script source is fetched twice in
one session, refuting "each absolute URL is fetched at most once per
session" as stated over the whole session. -/
theorem c2_counterexample :
    fetchCount (sessionTrace wSelf "https://ex.com/") "https://ex.com/" = 2 := by
  rfl

/-- C2 (amended): the Bounded Downloader (the `processAssets` phase,
including CSS sub-downloads) fetches every URL at most once: it adds at most
one fetch of `u` to the trace, and adds none when `u` is already in the
visited set — the atomic check-and-set means no two tasks win a claim on
`u`. -/
theorem c2_amended_downloader_once (fr : String → Option String)
    (doc : List Elem) (base : String) (s : CrawlState) (u : String) :
    fetchCount (processAssets fr doc base s).trace u
        ≤ fetchCount s.trace u + 1 ∧
    (u ∈ s.visited →
      fetchCount (processAssets fr doc base s).trace u = fetchCount s.trace u) := by
  obtain ⟨hmono, ⟨dt, ht⟩, hcnt⟩ := processAssets_fetchBound fr doc base s
  constructor
  · have h1 := hcnt u
    split at h1 <;> omega
  · intro hu
    have h1 := hcnt u
    rw [if_neg (fun hh => hh.2 hu)] at h1
    have h2 : fetchCount s.trace u
        ≤ fetchCount (processAssets fr doc base s).trace u := by
      rw [ht, fetchCount_append]
      omega
    omega

/-- C2 amended, witnessed at a concrete instance with the URL already
visited. -/
theorem c2_amended_witness :
    fetchCount (processAssets (fun _ => none) [] "" s2w).trace "https://v.example/"
        ≤ fetchCount s2w.trace "https://v.example/" + 1 ∧
    fetchCount (processAssets (fun _ => none) [] "" s2w).trace "https://v.example/"
        = fetchCount s2w.trace "https://v.example/" :=
  ⟨(c2_amended_downloader_once (fun _ => none) [] "" s2w "https://v.example/").1,
   (c2_amended_downloader_once (fun _ => none) [] "" s2w "https://v.example/").2
     (by decide)⟩

/-- C9: an input that does not parse as an absolute URL makes the session
fail synchronously with the invalid-URL error, with an empty event trace —
in particular no network request is made. -/
theorem c9_invalid_url (w : World) (input : String)
    (h : parseAbsolute input = none) :
    runSession w input = Except.error "Invalid URL provided" ∧
    sessionTrace w input = [] ∧
    (∀ u, fetchCount (sessionTrace w input) u = 0) := by
  refine ⟨?_, ?_, ?_⟩
  · unfold runSession
    rw [h]
  · unfold sessionTrace runSession
    rw [h]
  · intro u
    unfold sessionTrace runSession
    rw [h]
    rfl

/-- C9, witnessed at the spec's example input `"not a url"`. -/
theorem c9_invalid_url_witness :
    runSession wAny "not a url" = Except.error "Invalid URL provided" ∧
    sessionTrace wAny "not a url" = [] ∧
    (∀ u, fetchCount (sessionTrace wAny "not a url") u = 0) :=
  c9_invalid_url wAny "not a url" (by rfl)

/-- C10: downloading a stylesheet's embedded sub-assets changes none of
`pagesScanned`, `assetsFound`, `assetsDownloaded`, adds no entry to the
asset registry, and every archive entry it adds lives under `assets/`. -/
theorem c10_css_frame (fr : String → Option String) (css cssUrl : String)
    (s : CrawlState) :
    (processCssAssets fr css cssUrl s).2.stats.pagesScanned
        = s.stats.pagesScanned ∧
    (processCssAssets fr css cssUrl s).2.stats.assetsFound
        = s.stats.assetsFound ∧
    (processCssAssets fr css cssUrl s).2.stats.assetsDownloaded
        = s.stats.assetsDownloaded ∧
    (processCssAssets fr css cssUrl s).2.assets = s.assets ∧
    (∀ pth c, assocGet (processCssAssets fr css cssUrl s).2.zip pth = some c →
      assocGet s.zip pth = some c ∨ ∃ r, pth = "assets/" ++ r) := by
  obtain ⟨p1, p2, p3, p4, _, pz, _, _, _⟩ := processCss_facts fr css cssUrl s
  exact ⟨p1, p2, p3, p4, pz⟩

/-- C10, witnessed on a stylesheet with one downloadable sub-asset. -/
theorem c10_css_frame_witness :
    (processCssAssets (fun _ => some "P") "url(a.png)"
        "https://site.example/css/style.css" initState).2.stats.assetsDownloaded
      = initState.stats.assetsDownloaded ∧
    (assocGet initState.zip "assets/a.png" = some "P" ∨
      ∃ r, "assets/a.png" = "assets/" ++ r) :=
  ⟨(c10_css_frame (fun _ => some "P") "url(a.png)"
      "https://site.example/css/style.css" initState).2.2.1,
   (c10_css_frame (fun _ => some "P") "url(a.png)"
      "https://site.example/css/style.css" initState).2.2.2.2
     "assets/a.png" "P" (by rfl)⟩

/-- Per-task facts for a non-stylesheet task on a fresh URL. -/
theorem downloadAsset_noncss_step (fr : String → Option String) (url : String)
    (t : AssetType) (s : CrawlState) (hne : t ≠ .css) (hnv : url ∉ s.visited) :
    (downloadAsset fr url t s).stats.assetsDownloaded
        = s.stats.assetsDownloaded + (if (fr url).isSome then 1 else 0) ∧
    (downloadAsset fr url t s).stats.assetsFound = s.stats.assetsFound ∧
    (downloadAsset fr url t s).visited = s.visited ++ [url] ∧
    (∃ dt, (downloadAsset fr url t s).trace = s.trace ++ dt) ∧
    (fr url = none →
      Event.log ⟨"Failed to download " ++ url ++ ": " ++ proxyFailMsg url,
        .WARNING⟩ ∈ (downloadAsset fr url t s).trace) := by
  rcases h : fr url with _ | b
  · rw [downloadAsset_fail fr url t s hnv h]
    refine ⟨by simp [h], rfl, rfl, ⟨_, rfl⟩, fun _ => ?_⟩
    exact List.mem_append_right _ (by simp)
  · rw [downloadAsset_noncss_some fr url t s b hne hnv h]
    exact ⟨by simp [h], rfl, rfl, ⟨_, rfl⟩, fun hc => by simp at hc⟩

/-- Counting facts for a non-stylesheet batch on fresh, pairwise-distinct
URLs: `assetsDownloaded` grows by exactly the number of oracle successes,
`assetsFound` is untouched, the visited set grows by exactly the batch URLs,
and each failed URL gets its WARNING log line. -/
theorem c6Fold (fr : String → Option String) :
    ∀ (items : List (String × AssetType)) (s : CrawlState),
      ((items.map Prod.fst).Nodup) →
      (∀ p ∈ items, p.1 ∉ s.visited) →
      (∀ p ∈ items, p.2 ≠ AssetType.css) →
      (items.foldl (fun s it => downloadAsset fr it.1 it.2 s) s).stats.assetsDownloaded
          = s.stats.assetsDownloaded
            + items.countP (fun p => (fr p.1).isSome) ∧
      (items.foldl (fun s it => downloadAsset fr it.1 it.2 s) s).stats.assetsFound
          = s.stats.assetsFound ∧
      (items.foldl (fun s it => downloadAsset fr it.1 it.2 s) s).visited
          = s.visited ++ items.map Prod.fst ∧
      (∃ dt, (items.foldl (fun s it => downloadAsset fr it.1 it.2 s) s).trace
          = s.trace ++ dt) ∧
      (∀ p ∈ items, fr p.1 = none →
        Event.log ⟨"Failed to download " ++ p.1 ++ ": " ++ proxyFailMsg p.1,
          .WARNING⟩
          ∈ (items.foldl (fun s it => downloadAsset fr it.1 it.2 s) s).trace) := by
  intro items
  induction items with
  | nil =>
    intro s _ _ _
    exact ⟨by simp, rfl, by simp, ⟨[], by simp⟩, by simp⟩
  | cons a rest ih =>
    intro s hnd hfresh hnocss
    rw [List.map_cons, List.nodup_cons] at hnd
    obtain ⟨d1, d2, d3, hd4, d5⟩ := downloadAsset_noncss_step fr a.1 a.2 s
      (hnocss a (List.mem_cons_self _ _)) (hfresh a (List.mem_cons_self _ _))
    have hfresh' : ∀ p ∈ rest, p.1 ∉ (downloadAsset fr a.1 a.2 s).visited := by
      intro p hp
      rw [d3]
      intro hmem
      rcases List.mem_append.mp hmem with hm | hm
      · exact hfresh p (List.mem_cons_of_mem _ hp) hm
      · simp only [List.mem_singleton] at hm
        exact hnd.1 (hm ▸ List.mem_map_of_mem Prod.fst hp)
    obtain ⟨i1, i2, i3, hi4, i5⟩ := ih (downloadAsset fr a.1 a.2 s) hnd.2
      hfresh' (fun p hp => hnocss p (List.mem_cons_of_mem _ hp))
    rw [List.foldl_cons]
    refine ⟨?_, i2.trans d2, ?_, append_ext_trans hd4 hi4, ?_⟩
    · rw [i1, d1, List.countP_cons]
      omega
    · rw [i3, d3, List.append_assoc]
      rfl
    · intro p hp hf
      rcases List.mem_cons.mp hp with hm | hm
      · subst hm
        obtain ⟨dt, hdt⟩ := hi4
        rw [hdt]
        exact List.mem_append_left _ (d5 hf)
      · exact i5 p hm hf

/-- When exactly one URL of a Nodup batch fails, the success count is the
batch size minus one. -/
theorem countP_one_fail (fr : String → Option String) :
    ∀ (items : List (String × AssetType)) (uf : String),
      ((items.map Prod.fst).Nodup) → uf ∈ items.map Prod.fst →
      fr uf = none →
      (∀ p ∈ items, p.1 ≠ uf → (fr p.1).isSome = true) →
      items.countP (fun p => (fr p.1).isSome) + 1 = items.length := by
  intro items
  induction items with
  | nil =>
    intro uf _ hm
    simp at hm
  | cons a rest ih =>
    intro uf hnd hm hf hok
    rw [List.map_cons, List.nodup_cons] at hnd
    rw [List.countP_cons, List.length_cons]
    by_cases ha : a.1 = uf
    · have h0 : (fr a.1).isSome = false := by rw [ha, hf]; rfl
      have hall : ∀ p ∈ rest, ((fr p.1).isSome : Bool) = true := by
        intro p hp
        refine hok p (List.mem_cons_of_mem _ hp) ?_
        intro he
        exact hnd.1 (by rw [ha, ← he]; exact List.mem_map_of_mem Prod.fst hp)
      rw [List.countP_eq_length.mpr hall]
      simp [h0]
    · have hpa : (fr a.1).isSome = true :=
        hok a (List.mem_cons_self _ _) ha
      have hm' : uf ∈ rest.map Prod.fst := by
        rw [List.map_cons] at hm
        rcases List.mem_cons.mp hm with hm1 | hm1
        · exact absurd hm1.symm ha
        · exact hm1
      have := ih uf hnd.2 hm' hf
        (fun p hp hne => hok p (List.mem_cons_of_mem _ hp) hne)
      simp [hpa]
      omega

/-- C6: with fresh, pairwise-distinct, non-stylesheet tasks of which exactly
one fails all relays, the batch still completes: `assetsFound` is the queue
length, the final `assetsDownloaded` is exactly one less, and a WARNING log
entry naming the failed URL appears in the trace (each task's failure is
caught at the task boundary). -/
theorem c6_single_failure (fr : String → Option String) (doc : List Elem)
    (base : String) (s : CrawlState) (uf : String)
    (hnodup : ((discoverQueue doc base).map Prod.fst).Nodup)
    (hfresh : ∀ p ∈ discoverQueue doc base, p.1 ∉ s.visited)
    (hnocss : ∀ p ∈ discoverQueue doc base, p.2 ≠ AssetType.css)
    (hmem : uf ∈ (discoverQueue doc base).map Prod.fst)
    (hfail : fr uf = none)
    (hok : ∀ p ∈ discoverQueue doc base, p.1 ≠ uf → (fr p.1).isSome = true)
    (hdl : s.stats.assetsDownloaded = 0) :
    (processAssets fr doc base s).stats.assetsFound
        = (discoverQueue doc base).length ∧
    (processAssets fr doc base s).stats.assetsDownloaded
        = (discoverQueue doc base).length - 1 ∧
    Event.log ⟨"Failed to download " ++ uf ++ ": " ++ proxyFailMsg uf,
      .WARNING⟩ ∈ (processAssets fr doc base s).trace ∧
    (startM w6C "https://w.example/").1 = true := by
  unfold processAssets
  rw [chunks_run_eq_fold]
  obtain ⟨i1, i2, i3, hi4, i5⟩ := c6Fold fr (discoverQueue doc base)
    (logS (updStats s { s.stats with assetsFound := (discoverQueue doc base).length })
      ("Found " ++ natToStr (discoverQueue doc base).length
        ++ " linked assets. Downloading...") .INFO)
    hnodup (by dsimp only [logS, emit, updStats]; exact hfresh) hnocss
  have hcount := countP_one_fail fr (discoverQueue doc base) uf hnodup hmem
    hfail hok
  dsimp only [logS, emit, updStats] at i1 i2 i3 hi4 i5 ⊢
  refine ⟨i2, by omega, ?_, by rfl⟩
  obtain ⟨p, hp, hpe⟩ := List.mem_map.mp hmem
  have := i5 p hp (by rw [hpe]; exact hfail)
  rw [hpe] at this
  exact this

/-- C6, witnessed on a two-task batch whose script fails all relays while
the image succeeds. -/
theorem c6_single_failure_witness :
    (processAssets fr6C doc6C "https://w.example/" initState).stats.assetsFound
        = (discoverQueue doc6C "https://w.example/").length ∧
    (processAssets fr6C doc6C "https://w.example/" initState).stats.assetsDownloaded
        = (discoverQueue doc6C "https://w.example/").length - 1 ∧
    Event.log ⟨"Failed to download " ++ "https://w.example/a.js" ++ ": "
        ++ proxyFailMsg "https://w.example/a.js", .WARNING⟩
      ∈ (processAssets fr6C doc6C "https://w.example/" initState).trace ∧
    (startM w6C "https://w.example/").1 = true :=
  c6_single_failure fr6C doc6C "https://w.example/" initState
    "https://w.example/a.js" (by decide) (by decide) (by decide) (by decide)
    (by decide) (by decide) (by decide)

theorem logsOf_append (a b : List Event) :
    logsOf (a ++ b) = logsOf a ++ logsOf b := by
  simp [logsOf, List.filterMap_append]

/-- C7 counterexample: a successful non-stylesheet task emits exactly one
log line — the start line — and no terminal success line, refuting "one log
line per attempt (start) and one per terminal outcome (success/warning)" for
the success case. -/
theorem c7_counterexample :
    logsOf (downloadAsset
        (fun u => if u = "https://e.com/a.js" then some "X" else none)
        "https://e.com/a.js" AssetType.js initState).trace
      = [⟨"Fetching https://e.com/a.js...", .INFO⟩] := by
  rfl

/-- C7 (amended): on a fresh URL, a successful non-stylesheet task
increments `assetsDownloaded` exactly once and `totalBytes` exactly once (by
the body length), and emits exactly one log line, the start line (no
terminal success line); a failed task leaves the counters unchanged and
emits the start line plus one WARNING line.  (A stylesheet task additionally
updates `totalBytes` once per fetched sub-asset and logs per sub-asset; its
registry/stats frame is the C10 theorem.) -/
theorem c7_amended_side_effects (fr : String → Option String) (url : String)
    (t : AssetType) (s : CrawlState) (hv : url ∉ s.visited)
    (ht : t ≠ .css) :
    (∀ b, fr url = some b →
      (downloadAsset fr url t s).stats.assetsDownloaded
          = s.stats.assetsDownloaded + 1 ∧
      (downloadAsset fr url t s).stats.totalSize
          = s.stats.totalSize + b.length ∧
      logsOf (downloadAsset fr url t s).trace
        = logsOf s.trace ++ [⟨"Fetching " ++ takeS url 50 ++ "...", .INFO⟩]) ∧
    (fr url = none →
      (downloadAsset fr url t s).stats.assetsDownloaded
          = s.stats.assetsDownloaded ∧
      (downloadAsset fr url t s).stats.totalSize = s.stats.totalSize ∧
      logsOf (downloadAsset fr url t s).trace
        = logsOf s.trace ++
          [⟨"Fetching " ++ takeS url 50 ++ "...", .INFO⟩,
           ⟨"Failed to download " ++ url ++ ": " ++ proxyFailMsg url,
             .WARNING⟩]) := by
  constructor
  · intro b hb
    rw [downloadAsset_noncss_some fr url t s b ht hv hb]
    refine ⟨rfl, rfl, ?_⟩
    rw [logsOf_append]
    simp [logsOf]
  · intro hb
    rw [downloadAsset_fail fr url t s hv hb]
    refine ⟨rfl, rfl, ?_⟩
    rw [logsOf_append]
    simp [logsOf]

/-- C7 amended, witnessed on one successful script task. -/
theorem c7_amended_witness :
    (downloadAsset (fun _ => some "AB") "https://w.example/f.js"
        AssetType.js initState).stats.assetsDownloaded
      = initState.stats.assetsDownloaded + 1 ∧
    (downloadAsset (fun _ => some "AB") "https://w.example/f.js"
        AssetType.js initState).stats.totalSize
      = initState.stats.totalSize + ("AB" : String).length ∧
    logsOf (downloadAsset (fun _ => some "AB") "https://w.example/f.js"
        AssetType.js initState).trace
      = logsOf initState.trace ++
        [⟨"Fetching " ++ takeS "https://w.example/f.js" 50 ++ "...", .INFO⟩] :=
  (c7_amended_side_effects (fun _ => some "AB") "https://w.example/f.js"
      AssetType.js initState (by decide) (by decide)).1 "AB" rfl

/-- C8: `processAssets` partitions the ordered task list into sequential
chunks of size at most five (the default concurrency ceiling); the chunks
cover the queue in order, the downloader is exactly the fold of the chunks
in sequence (the model serialises each chunk's `Promise.all` in start
order), and each chunk's entire effect — including the CSS sub-downloads its
stylesheet tasks trigger inside `downloadAsset` — is appended to the trace
before the next chunk begins. -/
theorem c8_chunked_execution (fr : String → Option String) (doc : List Elem)
    (base : String) (s : CrawlState) :
    (∀ c ∈ chunks5 (discoverQueue doc base), c.length ≤ 5) ∧
    (chunks5 (discoverQueue doc base)).flatten = discoverQueue doc base ∧
    processAssets fr doc base s =
      (chunks5 (discoverQueue doc base)).foldl (runChunk fr)
        (logS (updStats s { s.stats with
            assetsFound := (discoverQueue doc base).length })
          ("Found " ++ natToStr (discoverQueue doc base).length
            ++ " linked assets. Downloading...") .INFO) ∧
    (∀ (s' : CrawlState) (c : List (String × AssetType)),
      ∃ dt, (runChunk fr s' c).trace = s'.trace ++ dt) := by
  refine ⟨chunks5_length_le _, chunks5_flatten _, rfl, ?_⟩
  intro s' c
  exact (downloadFold_facts fr c s').2.2.2.2.2.2.1

/-- C8, witnessed on a six-task queue: the first chunk is the first five
tasks, the chunks flatten back to the queue, and a chunk's run only appends
to the trace. -/
theorem c8_chunked_witness :
    ((discoverQueue doc8C "https://w.example/").take 5).length ≤ 5 ∧
    (chunks5 (discoverQueue doc8C "https://w.example/")).flatten
        = discoverQueue doc8C "https://w.example/" ∧
    (∃ dt, (runChunk (fun _ => none) initState
        ((discoverQueue doc8C "https://w.example/").take 5)).trace
      = initState.trace ++ dt) := by
  have H := c8_chunked_execution (fun _ => none) doc8C "https://w.example/"
    initState
  exact ⟨H.1 _ (by decide), H.2.1, H.2.2.2 initState _⟩

/-- C3: for a page referencing one stylesheet which itself embeds one
background image `url(img.png)`, the final archive contains
`css/style.css` and `assets/img.png`, and the stored stylesheet text has the
token rewritten to `url(../assets/img.png)`; moreover, for every token, the
rewrite callback preserves the captured quoting style, and a token whose
reference fails resolution (or is excluded) is left unmodified. -/
theorem c3_css_pipeline :
    assocGet (sessionZip w3C "https://site.example/") "css/style.css"
        = some "body { background-image: url(../assets/img.png); }" ∧
    assocGet (sessionZip w3C "https://site.example/") "assets/img.png"
        = some "PNGDATA" ∧
    (∀ cssUrl quote inner full : String,
      (startsWithS inner "data:" || startsWithS inner "#") = false →
      resolveS inner cssUrl = none →
      cssRewriteToken cssUrl quote inner full = full) ∧
    (∀ (cssUrl quote inner full : String) (u : URLModel),
      (startsWithS inner "data:" || startsWithS inner "#") = false →
      resolveS inner cssUrl = some u →
      cssRewriteToken cssUrl quote inner full =
        "url(" ++ quote ++ "../assets/"
          ++ getFilenameFromUrl u.href .other ++ quote ++ ")") := by
  refine ⟨by rfl, by rfl, ?_, ?_⟩
  · intro cssUrl quote inner full hex hres
    unfold cssRewriteToken
    rw [hex, hres]
    rfl
  · intro cssUrl quote inner full u hex hres
    unfold cssRewriteToken
    rw [hex, hres]
    rfl

/-- C3, witnessed on a token whose reference fails resolution (`https://`
has no host) and a double-quoted resolvable token whose quoting is
preserved. -/
theorem c3_css_pipeline_witness :
    cssRewriteToken "https://site.example/css/style.css" "" "https://"
        "url(https://)" = "url(https://)" ∧
    cssRewriteToken "https://site.example/css/style.css" "\"" "img.png"
        "url(\"img.png\")"
      = "url(" ++ "\"" ++ "../assets/" ++ "img.png" ++ "\"" ++ ")" := by
  constructor
  · exact (c3_css_pipeline).2.2.1 "https://site.example/css/style.css" ""
      "https://" "url(https://)" (by rfl) (by rfl)
  · have := (c3_css_pipeline).2.2.2 "https://site.example/css/style.css"
      "\"" "img.png" "url(\"img.png\")"
      ⟨"https", "site.example", ["css", "img.png"], none, none⟩
      (by rfl) (by rfl)
    rw [this]
    rfl

theorem setAttr_tag (e : Elem) (n v : String) : (setAttr e n v).tag = e.tag :=
  rfl

theorem rewriteElem_img (pageHref : String) (assets : List (String × Asset))
    (e : Elem) (v : String) (htag : e.tag = "IMG")
    (hsrc : getAttr e "src" = some v) (hne : v ≠ "") :
    rewriteElem pageHref assets e =
      match assocGet assets (resolveUrlS pageHref v) with
      | some a => setAttr e "src" ("images/" ++ a.filename)
      | none => e := by
  have h1 : rewritePassS assets pageHref isStylesheetLink "href" "css" e = e := by
    simp [rewritePassS, isStylesheetLink, htag]
  have h2 : rewritePassS assets pageHref
      (fun e => e.tag == "SCRIPT" && (getAttr e "src").isSome) "src" "js" e = e := by
    simp [rewritePassS, htag]
  rcases hga : assocGet assets (resolveUrlS pageHref v) with _ | a
  · have h3 : rewritePassS assets pageHref
        (fun e => e.tag == "IMG" && (getAttr e "src").isSome) "src" "images" e
        = e := by
      simp [rewritePassS, htag, hsrc, hne, hga]
    have h4 : rewritePassS assets pageHref
        (fun e => (e.tag == "SOURCE" || e.tag == "VIDEO")
          && (getAttr e "src").isSome) "src" "assets" e = e := by
      simp [rewritePassS, htag]
    unfold rewriteElem
    rw [h1, h2, h3, h4]
  · have h3 : rewritePassS assets pageHref
        (fun e => e.tag == "IMG" && (getAttr e "src").isSome) "src" "images" e
        = setAttr e "src" ("images/" ++ a.filename) := by
      simp [rewritePassS, htag, hsrc, hne, hga]
    have h4 : rewritePassS assets pageHref
        (fun e => (e.tag == "SOURCE" || e.tag == "VIDEO")
          && (getAttr e "src").isSome) "src" "assets"
          (setAttr e "src" ("images/" ++ a.filename))
        = setAttr e "src" ("images/" ++ a.filename) := by
      simp [rewritePassS, setAttr_tag, htag]
    unfold rewriteElem
    rw [h1, h2, h3, h4]

theorem rewriteElem_link (pageHref : String) (assets : List (String × Asset))
    (e : Elem) (v : String) (htag : e.tag = "LINK")
    (hrel : getAttr e "rel" = some "stylesheet")
    (hhref : getAttr e "href" = some v) (hne : v ≠ "") :
    rewriteElem pageHref assets e =
      match assocGet assets (resolveUrlS pageHref v) with
      | some a => setAttr e "href" ("css/" ++ a.filename)
      | none => e := by
  rcases hga : assocGet assets (resolveUrlS pageHref v) with _ | a
  · have h1 : rewritePassS assets pageHref isStylesheetLink "href" "css" e
        = e := by
      simp [rewritePassS, isStylesheetLink, htag, hrel, hhref, hne, hga]
    have h2 : rewritePassS assets pageHref
        (fun e => e.tag == "SCRIPT" && (getAttr e "src").isSome) "src" "js" e
        = e := by
      simp [rewritePassS, htag]
    have h3 : rewritePassS assets pageHref
        (fun e => e.tag == "IMG" && (getAttr e "src").isSome) "src" "images" e
        = e := by
      simp [rewritePassS, htag]
    have h4 : rewritePassS assets pageHref
        (fun e => (e.tag == "SOURCE" || e.tag == "VIDEO")
          && (getAttr e "src").isSome) "src" "assets" e = e := by
      simp [rewritePassS, htag]
    unfold rewriteElem
    rw [h1, h2, h3, h4]
  · have h1 : rewritePassS assets pageHref isStylesheetLink "href" "css" e
        = setAttr e "href" ("css/" ++ a.filename) := by
      simp [rewritePassS, isStylesheetLink, htag, hrel, hhref, hne, hga]
    have h2 : rewritePassS assets pageHref
        (fun e => e.tag == "SCRIPT" && (getAttr e "src").isSome) "src" "js"
          (setAttr e "href" ("css/" ++ a.filename))
        = setAttr e "href" ("css/" ++ a.filename) := by
      simp [rewritePassS, setAttr_tag, htag]
    have h3 : rewritePassS assets pageHref
        (fun e => e.tag == "IMG" && (getAttr e "src").isSome) "src" "images"
          (setAttr e "href" ("css/" ++ a.filename))
        = setAttr e "href" ("css/" ++ a.filename) := by
      simp [rewritePassS, setAttr_tag, htag]
    have h4 : rewritePassS assets pageHref
        (fun e => (e.tag == "SOURCE" || e.tag == "VIDEO")
          && (getAttr e "src").isSome) "src" "assets"
          (setAttr e "href" ("css/" ++ a.filename))
        = setAttr e "href" ("css/" ++ a.filename) := by
      simp [rewritePassS, setAttr_tag, htag]
    unfold rewriteElem
    rw [h1, h2, h3, h4]

theorem rewriteElem_script (pageHref : String) (assets : List (String × Asset))
    (e : Elem) (v : String) (htag : e.tag = "SCRIPT")
    (hsrc : getAttr e "src" = some v) (hne : v ≠ "") :
    rewriteElem pageHref assets e =
      match assocGet assets (resolveUrlS pageHref v) with
      | some a => setAttr e "src" ("js/" ++ a.filename)
      | none => e := by
  have h1 : rewritePassS assets pageHref isStylesheetLink "href" "css" e = e := by
    simp [rewritePassS, isStylesheetLink, htag]
  rcases hga : assocGet assets (resolveUrlS pageHref v) with _ | a
  · have h2 : rewritePassS assets pageHref
        (fun e => e.tag == "SCRIPT" && (getAttr e "src").isSome) "src" "js" e
        = e := by
      simp [rewritePassS, htag, hsrc, hne, hga]
    have h3 : rewritePassS assets pageHref
        (fun e => e.tag == "IMG" && (getAttr e "src").isSome) "src" "images" e
        = e := by
      simp [rewritePassS, htag]
    have h4 : rewritePassS assets pageHref
        (fun e => (e.tag == "SOURCE" || e.tag == "VIDEO")
          && (getAttr e "src").isSome) "src" "assets" e = e := by
      simp [rewritePassS, htag]
    unfold rewriteElem
    rw [h1, h2, h3, h4]
  · have h2 : rewritePassS assets pageHref
        (fun e => e.tag == "SCRIPT" && (getAttr e "src").isSome) "src" "js" e
        = setAttr e "src" ("js/" ++ a.filename) := by
      simp [rewritePassS, htag, hsrc, hne, hga]
    have h3 : rewritePassS assets pageHref
        (fun e => e.tag == "IMG" && (getAttr e "src").isSome) "src" "images"
          (setAttr e "src" ("js/" ++ a.filename))
        = setAttr e "src" ("js/" ++ a.filename) := by
      simp [rewritePassS, setAttr_tag, htag]
    have h4 : rewritePassS assets pageHref
        (fun e => (e.tag == "SOURCE" || e.tag == "VIDEO")
          && (getAttr e "src").isSome) "src" "assets"
          (setAttr e "src" ("js/" ++ a.filename))
        = setAttr e "src" ("js/" ++ a.filename) := by
      simp [rewritePassS, setAttr_tag, htag]
    unfold rewriteElem
    rw [h1, h2, h3, h4]

theorem rewriteElem_media (pageHref : String) (assets : List (String × Asset))
    (e : Elem) (v : String) (htag : e.tag = "SOURCE" ∨ e.tag = "VIDEO")
    (hsrc : getAttr e "src" = some v) (hne : v ≠ "") :
    rewriteElem pageHref assets e =
      match assocGet assets (resolveUrlS pageHref v) with
      | some a => setAttr e "src" ("assets/" ++ a.filename)
      | none => e := by
  have h1 : rewritePassS assets pageHref isStylesheetLink "href" "css" e = e := by
    rcases htag with htag | htag <;> simp [rewritePassS, isStylesheetLink, htag]
  have h2 : rewritePassS assets pageHref
      (fun e => e.tag == "SCRIPT" && (getAttr e "src").isSome) "src" "js" e
      = e := by
    rcases htag with htag | htag <;> simp [rewritePassS, htag]
  have h3 : rewritePassS assets pageHref
      (fun e => e.tag == "IMG" && (getAttr e "src").isSome) "src" "images" e
      = e := by
    rcases htag with htag | htag <;> simp [rewritePassS, htag]
  rcases hga : assocGet assets (resolveUrlS pageHref v) with _ | a
  · have h4 : rewritePassS assets pageHref
        (fun e => (e.tag == "SOURCE" || e.tag == "VIDEO")
          && (getAttr e "src").isSome) "src" "assets" e = e := by
      rcases htag with htag | htag <;>
        simp [rewritePassS, htag, hsrc, hne, hga]
    unfold rewriteElem
    rw [h1, h2, h3, h4]
  · have h4 : rewritePassS assets pageHref
        (fun e => (e.tag == "SOURCE" || e.tag == "VIDEO")
          && (getAttr e "src").isSome) "src" "assets" e
        = setAttr e "src" ("assets/" ++ a.filename) := by
      rcases htag with htag | htag <;>
        simp [rewritePassS, htag, hsrc, hne, hga]
    unfold rewriteElem
    rw [h1, h2, h3, h4]

/-- C4 counterexample: with a `<base>` element pointing at a different
origin, the Discoverer registers the asset under the base-resolved URL, but
the Document Rewriter re-resolves the attribute against the page URL only,
misses the registry, and leaves the attribute unchanged — refuting
"re-resolves ... using the effective base URL (the document's declared base
element if present)". -/
theorem c4_counterexample :
    sessionFinalDoc w4C "https://example.com/"
        = some [⟨"BASE", none, [("href", "https://cdn.example.com/")]⟩,
                ⟨"IMG", none, [("src", "img.png")]⟩] ∧
    assocGet (sessionAssets w4C "https://example.com/")
        "https://cdn.example.com/img.png"
      = some ⟨"https://cdn.example.com/img.png", "img.png", .image,
          "images/img.png"⟩ := by
  exact ⟨by rfl, by rfl⟩

/-- C4 (amended): the Document Rewriter touches exactly the recognized
reference-bearing elements; it re-resolves each original attribute value
against the session page URL (not the document's declared base element),
looks the result up in the registry, and on a hit replaces the attribute
with the per-element-kind folder plus the asset's filename, on a miss
leaves the element unchanged. -/
theorem c4_amended_rewrite (pageHref : String)
    (assets : List (String × Asset)) (doc : List Elem) :
    rewriteHtml pageHref assets doc = doc.map (rewriteElem pageHref assets) ∧
    (∀ e v, e.tag = "IMG" → getAttr e "src" = some v → v ≠ "" →
      rewriteElem pageHref assets e =
        match assocGet assets (resolveUrlS pageHref v) with
        | some a => setAttr e "src" ("images/" ++ a.filename)
        | none => e) ∧
    (∀ e v, e.tag = "LINK" → getAttr e "rel" = some "stylesheet" →
      getAttr e "href" = some v → v ≠ "" →
      rewriteElem pageHref assets e =
        match assocGet assets (resolveUrlS pageHref v) with
        | some a => setAttr e "href" ("css/" ++ a.filename)
        | none => e) ∧
    (∀ e v, e.tag = "SCRIPT" → getAttr e "src" = some v → v ≠ "" →
      rewriteElem pageHref assets e =
        match assocGet assets (resolveUrlS pageHref v) with
        | some a => setAttr e "src" ("js/" ++ a.filename)
        | none => e) ∧
    (∀ e v, (e.tag = "SOURCE" ∨ e.tag = "VIDEO") →
      getAttr e "src" = some v → v ≠ "" →
      rewriteElem pageHref assets e =
        match assocGet assets (resolveUrlS pageHref v) with
        | some a => setAttr e "src" ("assets/" ++ a.filename)
        | none => e) := by
  refine ⟨?_, rewriteElem_img pageHref assets, rewriteElem_link pageHref assets,
    rewriteElem_script pageHref assets, rewriteElem_media pageHref assets⟩
  simp only [rewriteHtml, List.map_map]
  rfl

/-- C4 amended, witnessed on an image element with the resolved URL present
in the registry (attribute replaced) and absent (element untouched). -/
theorem c4_amended_witness :
    rewriteElem "https://q.example/"
        [("https://q.example/x.png",
          ⟨"https://q.example/x.png", "x.png", .image, "images/x.png"⟩)]
        ⟨"IMG", none, [("src", "x.png")]⟩
      = setAttr ⟨"IMG", none, [("src", "x.png")]⟩ "src" ("images/" ++ "x.png") ∧
    rewriteElem "https://q.example/" [] ⟨"IMG", none, [("src", "x.png")]⟩
      = ⟨"IMG", none, [("src", "x.png")]⟩ := by
  constructor
  · have := (c4_amended_rewrite "https://q.example/"
      [("https://q.example/x.png",
        ⟨"https://q.example/x.png", "x.png", .image, "images/x.png"⟩)] []).2.1
      ⟨"IMG", none, [("src", "x.png")]⟩ "x.png" rfl (by rfl) (by decide)
    rw [this]
    rfl
  · have := (c4_amended_rewrite "https://q.example/" [] []).2.1
      ⟨"IMG", none, [("src", "x.png")]⟩ "x.png" rfl (by rfl) (by decide)
    rw [this]
    rfl

end Webripper
